import Mathlib

/-!
VulkanRenderer: device and swapchain negotiation, initialization and teardown.

A shallow embedding of `src/VulkanRenderer.cpp`: queue family resolution, physical
device selection, surface format, present mode and extent selection, the swapchain
and render pass create infos, the instance extension check with its populate loop,
and the sequencing of `init` and `cleanup` as traces of the objects created and
destroyed, with the properties proved about them.

Platform queries (`vkGetPhysicalDevice...`) are answers carried by the
`PhysicalDevice` record, and the results of creation calls are carried by the
`Platform` record; every answer is taken to be the same each time the same query is
made. Vulkan enumerators are the numeric values of the Vulkan headers.
-/

namespace VulkanRenderer

/-! ## Data model -/

/-- The fields of `VkQueueFamilyProperties` read by the renderer. -/
structure QueueFamilyProperties where
  queueFlags : Nat
  queueCount : Nat
  deriving Repr, DecidableEq

/-- The enumerator `VK_QUEUE_GRAPHICS_BIT`. -/
def VK_QUEUE_GRAPHICS_BIT : Nat := 1

/-- Modelled from the spec: the type `QueueFamilyIndices` is declared in a header
that is not under src/. The spec gives it as two optional small-integer indices,
present when non-negative; an unset index is `-1`. -/
structure QueueFamilyIndices where
  graphicsFamily : Int := -1
  presentationFamily : Int := -1
  deriving Repr, DecidableEq

/-- Modelled from the spec: `QueueFamilyIndices::isValid`, declared with the type;
valid if and only if both indices are present (non-negative). -/
def QueueFamilyIndices.isValid (indices : QueueFamilyIndices) : Bool :=
  decide (0 ≤ indices.graphicsFamily) && decide (0 ≤ indices.presentationFamily)

/-- The record `VkSurfaceFormatKHR`: a format and a color space, as enumerator values. -/
structure SurfaceFormat where
  format : Nat
  colorSpace : Nat
  deriving Repr, DecidableEq

/-- The enumerator `VK_FORMAT_UNDEFINED`. -/
def VK_FORMAT_UNDEFINED : Nat := 0
/-- The enumerator `VK_FORMAT_R8G8B8A8_UNORM`. -/
def VK_FORMAT_R8G8B8A8_UNORM : Nat := 37
/-- The enumerator `VK_FORMAT_B8G8R8A8_UNORM`. -/
def VK_FORMAT_B8G8R8A8_UNORM : Nat := 44
/-- The enumerator `VK_COLOR_SPACE_SRGB_NONLINEAR_KHR`. -/
def VK_COLOR_SPACE_SRGB_NONLINEAR_KHR : Nat := 0

/-- The enumerator `VK_PRESENT_MODE_MAILBOX_KHR`. -/
def VK_PRESENT_MODE_MAILBOX_KHR : Nat := 1
/-- The enumerator `VK_PRESENT_MODE_FIFO_KHR`. -/
def VK_PRESENT_MODE_FIFO_KHR : Nat := 2

/-- The record `VkExtent2D`; both fields are `uint32_t`. -/
structure Extent2D where
  width : Nat
  height : Nat
  deriving Repr, DecidableEq

/-- The fields of `VkSurfaceCapabilitiesKHR` read by the renderer. -/
structure SurfaceCapabilities where
  minImageCount : Nat
  maxImageCount : Nat
  currentExtent : Extent2D
  minImageExtent : Extent2D
  maxImageExtent : Extent2D
  deriving Repr, DecidableEq

/-- The value `std::numeric_limits<uint32_t>::max()`. -/
def UINT32_MAX : Nat := 2 ^ 32 - 1

/-- What the platform reports about one physical device and the renderer's surface:
its queue families, the answer of `vkGetPhysicalDeviceSurfaceSupportKHR` per family
index, its extension names, and its surface capabilities, formats and present modes. -/
structure PhysicalDevice where
  queueFamilyList : List QueueFamilyProperties
  presentationSupport : Nat → Bool
  extensions : List String
  surfaceCapabilities : SurfaceCapabilities
  formats : List SurfaceFormat
  presentationModes : List Nat

/-- The struct `SwapchainDetails` filled by `getSwapchainDetails`. -/
structure SwapchainDetails where
  surfaceCapabilities : SurfaceCapabilities
  formats : List SurfaceFormat
  presentationModes : List Nat
  deriving Repr, DecidableEq

/-- The errors thrown as `std::runtime_error` by the functions embedded here. -/
inductive RendererError where
  /-- Thrown with "Can't find GPUs that support Vulkan API!". -/
  | noGpuFound
  /-- Thrown with "Validation Layers requested, but at least one is not available!". -/
  | validationLayerUnavailable
  /-- Thrown with "VkInstance does not support all required extensions!". -/
  | extensionUnsupported
  /-- Thrown with "Failed to create a Vulkan Instance!". -/
  | instanceCreationFailed
  /-- Thrown with "Failed to set up Debug messenger!". -/
  | debugMessengerCreationFailed
  /-- Thrown with "Failed to create a surface!". -/
  | surfaceCreationFailed
  /-- Thrown with "Failed to create a Logical Device!". -/
  | deviceCreationFailed
  /-- Thrown with "Failed to create Swapchain!". -/
  | swapchainCreationFailed
  /-- Thrown with "Failed to create an Image View!". -/
  | imageViewCreationFailed
  /-- Thrown with "Failed to create a Render Pass!". -/
  | renderPassCreationFailed
  /-- Thrown by `readFile` when a shader binary cannot be read. -/
  | shaderFileUnreadable
  /-- Thrown with "Failed to create a shader module!". -/
  | shaderModuleCreationFailed
  /-- Thrown with "Failed to create Pipeline Layout!". -/
  | pipelineLayoutCreationFailed
  /-- Thrown with "Failed to create a Graphics Pipeline!". -/
  | graphicsPipelineCreationFailed
  deriving Repr, DecidableEq

/-! ## Queue family resolution (`getQueueFamilies`) -/

/-- The first test of the loop body of `getQueueFamilies`:
`queueCount > 0 && queueFlags & VK_QUEUE_GRAPHICS_BIT`. -/
def graphicsMatch (queueFamily : QueueFamilyProperties) : Bool :=
  decide (queueFamily.queueCount > 0) &&
    decide (queueFamily.queueFlags &&& VK_QUEUE_GRAPHICS_BIT ≠ 0)

/-- The second test of the loop body of `getQueueFamilies`:
`queueCount > 0 && presentationSupport`, with the answer queried for index `idx`. -/
def presentationMatch (presentationSupport : Nat → Bool) (idx : Nat)
    (queueFamily : QueueFamilyProperties) : Bool :=
  decide (queueFamily.queueCount > 0) && presentationSupport idx

/-- The two assignments of one iteration of the loop of `getQueueFamilies`, before
its validity test. Each assignment is unconditional on the index's earlier value. The
counter `idx` is stored as it is: a family index is far below the range of the field. -/
def assignFamily (presentationSupport : Nat → Bool) (idx : Nat)
    (queueFamily : QueueFamilyProperties) (indices : QueueFamilyIndices) :
    QueueFamilyIndices :=
  let indices :=
    if graphicsMatch queueFamily then { indices with graphicsFamily := (idx : Int) }
    else indices
  if presentationMatch presentationSupport idx queueFamily then
    { indices with presentationFamily := (idx : Int) }
  else indices

/-- The loop of `getQueueFamilies` from family index `idx` on. The second component
records, in order, the family indices for which presentation support was queried. -/
def scanFamilies (presentationSupport : Nat → Bool) :
    List QueueFamilyProperties → Nat → QueueFamilyIndices → List Nat →
      QueueFamilyIndices × List Nat
  | [], _, indices, queried => (indices, queried)
  | queueFamily :: rest, idx, indices, queried =>
    let indices := assignFamily presentationSupport idx queueFamily indices
    let queried := queried ++ [idx]
    if indices.isValid then (indices, queried)
    else scanFamilies presentationSupport rest (idx + 1) indices queried

/-- The function `getQueueFamilies`, with the trace of presentation-support queries. -/
def getQueueFamiliesTraced (queueFamilyList : List QueueFamilyProperties)
    (presentationSupport : Nat → Bool) : QueueFamilyIndices × List Nat :=
  scanFamilies presentationSupport queueFamilyList 0 {} []

/-- The function `VulkanRenderer::getQueueFamilies`. -/
def getQueueFamilies (queueFamilyList : List QueueFamilyProperties)
    (presentationSupport : Nat → Bool) : QueueFamilyIndices :=
  (getQueueFamiliesTraced queueFamilyList presentationSupport).1

/-! ## Physical device selection -/

/-- The function `VulkanRenderer::checkDeviceExtensionSupport`. The required set
`deviceExtensions` is a constant declared in a header that is not under src/, so it
is a parameter here; `strcmp(a, b) == 0` is equality of the two names. -/
def checkDeviceExtensionSupport (deviceExtensions : List String)
    (device : PhysicalDevice) : Bool :=
  let extensionsCount := device.extensions.length
  if extensionsCount ≤ 0 then false
  else
    deviceExtensions.all fun deviceExtension =>
      device.extensions.any fun extension => deviceExtension == extension

/-- The function `VulkanRenderer::getSwapchainDetails`: each list is filled only when
the platform reports a positive count. -/
def getSwapchainDetails (device : PhysicalDevice) : SwapchainDetails :=
  { surfaceCapabilities := device.surfaceCapabilities
    formats := if device.formats.length > 0 then device.formats else []
    presentationModes :=
      if device.presentationModes.length > 0 then device.presentationModes else [] }

/-- The function `VulkanRenderer::checkDeviceSuitable`. -/
def checkDeviceSuitable (deviceExtensions : List String) (device : PhysicalDevice) : Bool :=
  let indices := getQueueFamilies device.queueFamilyList device.presentationSupport
  let extensionsSupported := checkDeviceExtensionSupport deviceExtensions device
  let swapChainValid :=
    if extensionsSupported then
      let swapChainDetails := getSwapchainDetails device
      !swapChainDetails.formats.isEmpty && !swapChainDetails.presentationModes.isEmpty
    else false
  indices.isValid && extensionsSupported && swapChainValid

/-- The selection loop of `getPhysicalDevice`: the slot is assigned the first device
accepted by the predicate, and the loop stops there. -/
def selectDevice {α : Type} (suitable : α → Bool) : List α → Option α → Option α
  | [], physicalDevice => physicalDevice
  | device :: rest, physicalDevice =>
    if suitable device then some device else selectDevice suitable rest physicalDevice

/-- The function `VulkanRenderer::getPhysicalDevice`, over the enumerated device list,
the suitability predicate and the value held by `m_mainDevice.physicalDevice` on entry
(`none` is the unset handle). It returns the new value of the slot, or the error thrown. -/
def getPhysicalDevice {α : Type} (deviceList : List α) (suitable : α → Bool)
    (physicalDevice : Option α) : Except RendererError (Option α) :=
  let deviceCount := deviceList.length
  if deviceCount = 0 then .error .noGpuFound
  else .ok (selectDevice suitable deviceList physicalDevice)

/-! ## Swapchain configuration -/

/-- The test of the search loop of `chooseBestSurfaceFormat`. -/
def preferredFormat (format : SurfaceFormat) : Bool :=
  (format.format == VK_FORMAT_R8G8B8A8_UNORM || format.format == VK_FORMAT_B8G8R8A8_UNORM) &&
    format.colorSpace == VK_COLOR_SPACE_SRGB_NONLINEAR_KHR

/-- The function `VulkanRenderer::chooseBestSurfaceFormat`. The result is `none` where
the source reads `formats[0]` out of range (the empty sequence). -/
def chooseBestSurfaceFormat (formats : List SurfaceFormat) : Option SurfaceFormat :=
  if formats.length = 1 ∧ (formats[0]?.map fun f => f.format) = some VK_FORMAT_UNDEFINED then
    some { format := VK_FORMAT_B8G8R8A8_UNORM, colorSpace := VK_COLOR_SPACE_SRGB_NONLINEAR_KHR }
  else
    match formats.find? preferredFormat with
    | some format => some format
    | none => formats[0]?

/-- The function `VulkanRenderer::chooseBestPresentationMode`. -/
def chooseBestPresentationMode : List Nat → Nat
  | [] => VK_PRESENT_MODE_FIFO_KHR
  | presentationMode :: rest =>
    if presentationMode = VK_PRESENT_MODE_MAILBOX_KHR then presentationMode
    else chooseBestPresentationMode rest

/-- The conversion `static_cast<uint32_t>` of an `int`. -/
def toUInt32 (x : Int) : Nat := (x % 2 ^ 32).toNat

/-- The function `VulkanRenderer::chooseBestSwapExtent`; `window` is the pair written
by `glfwGetFramebufferSize`, which is read in the second branch only. -/
def chooseBestSwapExtent (surfaceCapabilities : SurfaceCapabilities) (window : Int × Int) :
    Extent2D :=
  if surfaceCapabilities.currentExtent.width ≠ UINT32_MAX then
    surfaceCapabilities.currentExtent
  else
    let newExtent : Extent2D := { width := toUInt32 window.1, height := toUInt32 window.2 }
    { width := max surfaceCapabilities.minImageExtent.width
        (min surfaceCapabilities.maxImageExtent.width newExtent.width)
      height := max surfaceCapabilities.minImageExtent.height
        (min surfaceCapabilities.maxImageExtent.height newExtent.height) }

/-! ## Specification-side definitions -/

/-- The indices after the two assignments of the loop body have been made for every
family of the list in turn, starting at family index `idx`, with no validity test. -/
def assignFamilies (presentationSupport : Nat → Bool) :
    List QueueFamilyProperties → Nat → QueueFamilyIndices → QueueFamilyIndices
  | [], _, indices => indices
  | queueFamily :: rest, idx, indices =>
    assignFamilies presentationSupport rest (idx + 1)
      (assignFamily presentationSupport idx queueFamily indices)

/-- The indices held once the families `0 .. j` of the list have been processed. -/
def indicesAfter (presentationSupport : Nat → Bool)
    (queueFamilyList : List QueueFamilyProperties) (j : Nat) : QueueFamilyIndices :=
  assignFamilies presentationSupport (queueFamilyList.take (j + 1)) 0 {}

/-- The clamp of the spec: `x` brought into the interval from `lo` to `hi`. -/
def clampTo (x lo hi : Nat) : Nat :=
  if x < lo then lo else if hi < x then hi else x

/-! ## Swapchain creation (`createSwapchain`) -/

/-- The enumerator `VK_SHARING_MODE_EXCLUSIVE`. -/
def VK_SHARING_MODE_EXCLUSIVE : Nat := 0
/-- The enumerator `VK_SHARING_MODE_CONCURRENT`. -/
def VK_SHARING_MODE_CONCURRENT : Nat := 1

/-- The image count computed by `createSwapchain`: `minImageCount + 1` in `uint32_t`
arithmetic, replaced by `maxImageCount` when that is positive and smaller. -/
def requestedImageCount (surfaceCapabilities : SurfaceCapabilities) : Nat :=
  let imageCount := (surfaceCapabilities.minImageCount + 1) % 2 ^ 32
  if surfaceCapabilities.maxImageCount > 0 ∧ surfaceCapabilities.maxImageCount < imageCount then
    surfaceCapabilities.maxImageCount
  else imageCount

/-- The value of the field `pQueueFamilyIndices`: `nullptr`, or the address of the array
`queueFamilyIndices` that the first branch of the sharing decision declares. -/
inductive FamilyIndicesPointer where
  | null
  | blockArray
  deriving Repr, DecidableEq

/-- The three sharing fields of `VkSwapchainCreateInfoKHR`, with the storage that
`pQueueFamilyIndices` may point to: the array `queueFamilyIndices` has its elements
while the block that declares it is being executed, and is `none` when that block has
not been entered or has been left. -/
structure ImageSharing where
  imageSharingMode : Nat
  queueFamilyIndexCount : Nat
  pQueueFamilyIndices : FamilyIndicesPointer
  queueFamilyIndices : Option (List Nat)
  deriving Repr, DecidableEq

/-- The sharing decision of `createSwapchain` at the last statement of the branch taken,
from the resolved queue family indices. In the first branch the array
`queueFamilyIndices` is declared with the indices converted by `static_cast<uint32_t>`
and `pQueueFamilyIndices` is given its address. -/
def imageSharingInBlock (indices : QueueFamilyIndices) : ImageSharing :=
  if indices.graphicsFamily ≠ indices.presentationFamily then
    { imageSharingMode := VK_SHARING_MODE_CONCURRENT
      queueFamilyIndexCount := 2
      pQueueFamilyIndices := .blockArray
      queueFamilyIndices :=
        some [toUInt32 indices.graphicsFamily, toUInt32 indices.presentationFamily] }
  else
    { imageSharingMode := VK_SHARING_MODE_EXCLUSIVE
      queueFamilyIndexCount := 0
      pQueueFamilyIndices := .null
      queueFamilyIndices := none }

/-- The sharing fields as `vkCreateSwapchainKHR` is given them: the if statement has been
left, so the array of its first branch no longer exists, while `pQueueFamilyIndices`
keeps the value it was given. -/
def imageSharing (indices : QueueFamilyIndices) : ImageSharing :=
  { imageSharingInBlock indices with queueFamilyIndices := none }

/-- What is read through `pQueueFamilyIndices`: no element for `nullptr`, and the
elements of the block's array for its address; `none` when that array no longer
exists, where the read is not defined. -/
def ImageSharing.familyIndices (sharing : ImageSharing) : Option (List Nat) :=
  match sharing.pQueueFamilyIndices with
  | .null => some []
  | .blockArray => sharing.queueFamilyIndices

/-- The fields of `VkSwapchainCreateInfoKHR` that `createSwapchain` derives from the
device's answers. -/
structure SwapchainCreateInfo where
  imageFormat : Nat
  imageColorSpace : Nat
  presentMode : Nat
  imageExtent : Extent2D
  minImageCount : Nat
  sharing : ImageSharing
  deriving Repr, DecidableEq

/-- The create info built by `VulkanRenderer::createSwapchain` for the selected device
and the window framebuffer size; `none` where `chooseBestSurfaceFormat` reads out of
range. -/
def swapchainCreateInfo (device : PhysicalDevice) (window : Int × Int) :
    Option SwapchainCreateInfo :=
  let swapChainDetails := getSwapchainDetails device
  match chooseBestSurfaceFormat swapChainDetails.formats with
  | none => none
  | some surfaceFormat =>
    let presentationMode := chooseBestPresentationMode swapChainDetails.presentationModes
    let extent := chooseBestSwapExtent swapChainDetails.surfaceCapabilities window
    let imageCount := requestedImageCount swapChainDetails.surfaceCapabilities
    let indices := getQueueFamilies device.queueFamilyList device.presentationSupport
    some { imageFormat := surfaceFormat.format
           imageColorSpace := surfaceFormat.colorSpace
           presentMode := presentationMode
           imageExtent := extent
           minImageCount := imageCount
           sharing := imageSharing indices }

/-! ## Render pass (`createRenderPass`) -/

/-- The constant `VK_SUBPASS_EXTERNAL`, `~0U`. -/
def VK_SUBPASS_EXTERNAL : Nat := 2 ^ 32 - 1
/-- The enumerator `VK_PIPELINE_STAGE_COLOR_ATTACHMENT_OUTPUT_BIT`. -/
def VK_PIPELINE_STAGE_COLOR_ATTACHMENT_OUTPUT_BIT : Nat := 0x400
/-- The enumerator `VK_PIPELINE_STAGE_BOTTOM_OF_PIPE_BIT`. -/
def VK_PIPELINE_STAGE_BOTTOM_OF_PIPE_BIT : Nat := 0x2000
/-- The enumerator `VK_ACCESS_COLOR_ATTACHMENT_READ_BIT`. -/
def VK_ACCESS_COLOR_ATTACHMENT_READ_BIT : Nat := 0x80
/-- The enumerator `VK_ACCESS_COLOR_ATTACHMENT_WRITE_BIT`. -/
def VK_ACCESS_COLOR_ATTACHMENT_WRITE_BIT : Nat := 0x100
/-- The enumerator `VK_ACCESS_MEMORY_READ_BIT`. -/
def VK_ACCESS_MEMORY_READ_BIT : Nat := 0x8000
/-- The enumerator `VK_SAMPLE_COUNT_1_BIT`. -/
def VK_SAMPLE_COUNT_1_BIT : Nat := 1
/-- The enumerator `VK_ATTACHMENT_LOAD_OP_CLEAR`. -/
def VK_ATTACHMENT_LOAD_OP_CLEAR : Nat := 1
/-- The enumerator `VK_ATTACHMENT_LOAD_OP_DONT_CARE`. -/
def VK_ATTACHMENT_LOAD_OP_DONT_CARE : Nat := 2
/-- The enumerator `VK_ATTACHMENT_STORE_OP_STORE`. -/
def VK_ATTACHMENT_STORE_OP_STORE : Nat := 0
/-- The enumerator `VK_ATTACHMENT_STORE_OP_DONT_CARE`. -/
def VK_ATTACHMENT_STORE_OP_DONT_CARE : Nat := 1
/-- The enumerator `VK_IMAGE_LAYOUT_UNDEFINED`. -/
def VK_IMAGE_LAYOUT_UNDEFINED : Nat := 0
/-- The enumerator `VK_IMAGE_LAYOUT_COLOR_ATTACHMENT_OPTIMAL`. -/
def VK_IMAGE_LAYOUT_COLOR_ATTACHMENT_OPTIMAL : Nat := 2
/-- The enumerator `VK_IMAGE_LAYOUT_PRESENT_SRC_KHR`. -/
def VK_IMAGE_LAYOUT_PRESENT_SRC_KHR : Nat := 1000001002
/-- The enumerator `VK_PIPELINE_BIND_POINT_GRAPHICS`. -/
def VK_PIPELINE_BIND_POINT_GRAPHICS : Nat := 0

/-- The record `VkAttachmentDescription`, with the fields the renderer assigns. -/
structure AttachmentDescription where
  format : Nat
  samples : Nat
  loadOp : Nat
  storeOp : Nat
  stencilLoadOp : Nat
  stencilStoreOp : Nat
  initialLayout : Nat
  finalLayout : Nat
  deriving Repr, DecidableEq

/-- The record `VkAttachmentReference`. -/
structure AttachmentReference where
  attachment : Nat
  layout : Nat
  deriving Repr, DecidableEq

/-- The record `VkSubpassDescription`, with the fields the renderer assigns. -/
structure SubpassDescription where
  pipelineBindPoint : Nat
  colorAttachments : List AttachmentReference
  deriving Repr, DecidableEq

/-- The record `VkSubpassDependency`. -/
structure SubpassDependency where
  srcSubpass : Nat
  dstSubpass : Nat
  srcStageMask : Nat
  dstStageMask : Nat
  srcAccessMask : Nat
  dstAccessMask : Nat
  dependencyFlags : Nat
  deriving Repr, DecidableEq

/-- The record `VkRenderPassCreateInfo`: each array with its count. -/
structure RenderPassCreateInfo where
  attachmentCount : Nat
  attachments : List AttachmentDescription
  subpassCount : Nat
  subpasses : List SubpassDescription
  dependencyCount : Nat
  dependencies : List SubpassDependency
  deriving Repr, DecidableEq

/-- The create info built by `VulkanRenderer::createRenderPass` from the swapchain
image format. -/
def renderPassCreateInfo (swapChainImageFormat : Nat) : RenderPassCreateInfo :=
  let colourAttachment : AttachmentDescription :=
    { format := swapChainImageFormat
      samples := VK_SAMPLE_COUNT_1_BIT
      loadOp := VK_ATTACHMENT_LOAD_OP_CLEAR
      storeOp := VK_ATTACHMENT_STORE_OP_STORE
      stencilLoadOp := VK_ATTACHMENT_LOAD_OP_DONT_CARE
      stencilStoreOp := VK_ATTACHMENT_STORE_OP_DONT_CARE
      initialLayout := VK_IMAGE_LAYOUT_UNDEFINED
      finalLayout := VK_IMAGE_LAYOUT_PRESENT_SRC_KHR }
  let colourAttachmentReference : AttachmentReference :=
    { attachment := 0, layout := VK_IMAGE_LAYOUT_COLOR_ATTACHMENT_OPTIMAL }
  let subpass : SubpassDescription :=
    { pipelineBindPoint := VK_PIPELINE_BIND_POINT_GRAPHICS
      colorAttachments := [colourAttachmentReference] }
  let subpassDependencies : List SubpassDependency :=
    [ { srcSubpass := VK_SUBPASS_EXTERNAL
        srcStageMask := VK_PIPELINE_STAGE_BOTTOM_OF_PIPE_BIT
        srcAccessMask := VK_ACCESS_MEMORY_READ_BIT
        dstSubpass := 0
        dstStageMask := VK_PIPELINE_STAGE_COLOR_ATTACHMENT_OUTPUT_BIT
        dstAccessMask :=
          VK_ACCESS_COLOR_ATTACHMENT_READ_BIT ||| VK_ACCESS_COLOR_ATTACHMENT_WRITE_BIT
        dependencyFlags := 0 },
      { srcSubpass := 0
        srcStageMask := VK_PIPELINE_STAGE_COLOR_ATTACHMENT_OUTPUT_BIT
        srcAccessMask :=
          VK_ACCESS_COLOR_ATTACHMENT_READ_BIT ||| VK_ACCESS_COLOR_ATTACHMENT_WRITE_BIT
        dstSubpass := VK_SUBPASS_EXTERNAL
        dstStageMask := VK_PIPELINE_STAGE_BOTTOM_OF_PIPE_BIT
        dstAccessMask := VK_ACCESS_MEMORY_READ_BIT
        dependencyFlags := 0 } ]
  { attachmentCount := 1
    attachments := [colourAttachment]
    subpassCount := 1
    subpasses := [subpass]
    dependencyCount := subpassDependencies.length
    dependencies := subpassDependencies }

/-! ## Initialization and teardown (`init`, `cleanup`) -/

/-- The objects the renderer creates and destroys through the platform. Image views
are numbered by the position of their image in the swapchain's image sequence. -/
inductive VkObject where
  | vulkanInstance
  | debugMessenger
  | surface
  | logicalDevice
  | swapchain
  | imageView (image : Nat)
  | renderPass
  | pipelineLayout
  | graphicsPipeline
  | vertexShaderModule
  | fragmentShaderModule
  deriving Repr, DecidableEq

/-- The eight steps called by `init`, named after the member functions. -/
inductive InitStep where
  | createInstance
  | createDebugMessenger
  | createSurface
  | getPhysicalDevice
  | createLogicalDevice
  | createSwapchain
  | createRenderPass
  | createGraphicsPipeline
  deriving Repr, DecidableEq

/-- What an execution does that is observed here: `init` entering one of its steps, a
platform call that created an object, and a platform call destroying one. -/
inductive Event where
  | step (s : InitStep)
  | create (object : VkObject)
  | destroy (object : VkObject)
  deriving Repr, DecidableEq

/-- The answers of the platform during initialization: the global `g_validationEnabled`,
the two support checks of `createInstance`, whether each creation call returns
`VK_SUCCESS`, the devices enumerated with the required device extensions, the number of
images of the created swapchain, and whether `readFile` returns each shader binary;
also the window size answered by `glfwGetFramebufferSize`. -/
structure Platform where
  validationEnabled : Bool
  validationLayerSupport : Bool
  instanceExtensionSupport : Bool
  createInstanceSuccess : Bool
  createDebugMessengerSuccess : Bool
  createSurfaceSuccess : Bool
  deviceList : List PhysicalDevice
  deviceExtensions : List String
  createDeviceSuccess : Bool
  framebufferSize : Int × Int
  createSwapchainSuccess : Bool
  swapchainImageCount : Nat
  createImageViewSuccess : Nat → Bool
  createRenderPassSuccess : Bool
  readVertexShader : Bool
  readFragmentShader : Bool
  createVertexShaderModuleSuccess : Bool
  createFragmentShaderModuleSuccess : Bool
  createPipelineLayoutSuccess : Bool
  createGraphicsPipelineSuccess : Bool

/-- The state of an execution: the events so far, in order, and the member
`m_swapchainImages` as the list of the image views stored in it. -/
structure Renderer where
  calls : List Event := []
  swapchainImages : List Nat := []
  deriving Repr, DecidableEq

/-- The renderer after one more event. -/
def Renderer.emit (r : Renderer) (e : Event) : Renderer :=
  { r with calls := r.calls ++ [e] }

/-- How the execution of a member function ends: it returns, it throws an error, or it
reaches a statement whose behaviour the source does not define (a platform call on the
unset device handle, an array read out of range or after its lifetime). -/
inductive Completion where
  | returned
  | threw (error : RendererError)
  | undefined
  deriving Repr, DecidableEq

/-- The result of a member function: the renderer as the function left it (for
`undefined`, as it was when the undefined statement was reached), and how it ended. -/
abbrev Outcome := Renderer × Completion

/-- The function `VulkanRenderer::createInstance`. -/
def createInstance (p : Platform) (r : Renderer) : Outcome :=
  if p.validationEnabled && !p.validationLayerSupport then
    (r, .threw .validationLayerUnavailable)
  else if !p.instanceExtensionSupport then (r, .threw .extensionUnsupported)
  else if !p.createInstanceSuccess then (r, .threw .instanceCreationFailed)
  else (r.emit (.create .vulkanInstance), .returned)

/-- The function `VulkanRenderer::createDebugMessenger`. -/
def createDebugMessenger (p : Platform) (r : Renderer) : Outcome :=
  if !p.validationEnabled then (r, .returned)
  else if !p.createDebugMessengerSuccess then (r, .threw .debugMessengerCreationFailed)
  else (r.emit (.create .debugMessenger), .returned)

/-- The function `VulkanRenderer::createSurface`. -/
def createSurface (p : Platform) (r : Renderer) : Outcome :=
  if !p.createSurfaceSuccess then (r, .threw .surfaceCreationFailed)
  else (r.emit (.create .surface), .returned)

/-- The value of the member `m_mainDevice.physicalDevice` once `getPhysicalDevice` has
returned: the device it assigned, or `none` (the handle is unset) when no enumerated
device is suitable. No other function assigns the member. -/
def selectedDevice (p : Platform) : Option PhysicalDevice :=
  match getPhysicalDevice p.deviceList (checkDeviceSuitable p.deviceExtensions) none with
  | .ok physicalDevice => physicalDevice
  | .error _ => none

/-- The step `getPhysicalDevice` of `init`: it creates no object, throws what
`getPhysicalDevice` throws on the enumerated devices, and otherwise leaves
`selectedDevice` in `m_mainDevice.physicalDevice`. -/
def selectPhysicalDevice (p : Platform) (r : Renderer) : Outcome :=
  match getPhysicalDevice p.deviceList (checkDeviceSuitable p.deviceExtensions) none with
  | .error e => (r, .threw e)
  | .ok _ => (r, .returned)

/-- The function `VulkanRenderer::createLogicalDevice`, given the value of
`m_mainDevice.physicalDevice`. Its first statement queries the queue families of that
device, and `vkCreateDevice` is called on it: with the handle unset the behaviour is
not defined. -/
def createLogicalDevice (p : Platform) (physicalDevice : Option PhysicalDevice)
    (r : Renderer) : Outcome :=
  match physicalDevice with
  | none => (r, .undefined)
  | some _ =>
    if !p.createDeviceSuccess then (r, .threw .deviceCreationFailed)
    else (r.emit (.create .logicalDevice), .returned)

/-- The last loop of `createSwapchain`: for each image in turn, `createImageView`, which
throws on a non-success result, then the image and its view are pushed on
`m_swapchainImages`. -/
def createImageViews (p : Platform) : List Nat → Renderer → Outcome
  | [], r => (r, .returned)
  | image :: rest, r =>
    if !p.createImageViewSuccess image then (r, .threw .imageViewCreationFailed)
    else
      createImageViews p rest
        { calls := r.calls ++ [.create (.imageView image)]
          swapchainImages := r.swapchainImages ++ [image] }

/-- The function `VulkanRenderer::createSwapchain`, given the value of
`m_mainDevice.physicalDevice`, as to the objects it creates. It queries the swapchain
details of that device and builds the create info from them: the behaviour is not
defined with the handle unset, when `chooseBestSurfaceFormat` reads `formats[0]` out of
range, and when `vkCreateSwapchainKHR` reads the family indices through a pointer to an
array that no longer exists. -/
def createSwapchain (p : Platform) (physicalDevice : Option PhysicalDevice)
    (r : Renderer) : Outcome :=
  match physicalDevice with
  | none => (r, .undefined)
  | some device =>
    match swapchainCreateInfo device p.framebufferSize with
    | none => (r, .undefined)
    | some swapChainCreateInfo =>
      match swapChainCreateInfo.sharing.familyIndices with
      | none => (r, .undefined)
      | some _ =>
        if !p.createSwapchainSuccess then (r, .threw .swapchainCreationFailed)
        else
          createImageViews p (List.range p.swapchainImageCount) (r.emit (.create .swapchain))

/-- The function `VulkanRenderer::createRenderPass`, as to the objects it creates. -/
def createRenderPass (p : Platform) (r : Renderer) : Outcome :=
  if !p.createRenderPassSuccess then (r, .threw .renderPassCreationFailed)
  else (r.emit (.create .renderPass), .returned)

/-- The function `VulkanRenderer::createGraphicsPipeline`, as to the objects it creates
and destroys. The two `vkDestroyShaderModule` calls are its last statements. -/
def createGraphicsPipeline (p : Platform) (r : Renderer) : Outcome :=
  if !p.readVertexShader then (r, .threw .shaderFileUnreadable)
  else if !p.readFragmentShader then (r, .threw .shaderFileUnreadable)
  else if !p.createVertexShaderModuleSuccess then (r, .threw .shaderModuleCreationFailed)
  else
    let r := r.emit (.create .vertexShaderModule)
    if !p.createFragmentShaderModuleSuccess then (r, .threw .shaderModuleCreationFailed)
    else
      let r := r.emit (.create .fragmentShaderModule)
      if !p.createPipelineLayoutSuccess then (r, .threw .pipelineLayoutCreationFailed)
      else
        let r := r.emit (.create .pipelineLayout)
        if !p.createGraphicsPipelineSuccess then (r, .threw .graphicsPipelineCreationFailed)
        else
          let r := r.emit (.create .graphicsPipeline)
          let r := r.emit (.destroy .fragmentShaderModule)
          let r := r.emit (.destroy .vertexShaderModule)
          (r, .returned)

/-- The member function that `init` calls for a step. The two steps that read
`m_mainDevice.physicalDevice` are called after `getPhysicalDevice` has returned, so they
are given `selectedDevice`. -/
def runStep (p : Platform) : InitStep → Renderer → Outcome
  | .createInstance => createInstance p
  | .createDebugMessenger => createDebugMessenger p
  | .createSurface => createSurface p
  | .getPhysicalDevice => selectPhysicalDevice p
  | .createLogicalDevice => createLogicalDevice p (selectedDevice p)
  | .createSwapchain => createSwapchain p (selectedDevice p)
  | .createRenderPass => createRenderPass p
  | .createGraphicsPipeline => createGraphicsPipeline p

/-- The statements of the `try` block of `init`, in order. -/
def initSteps : List InitStep :=
  [.createInstance, .createDebugMessenger, .createSurface, .getPhysicalDevice,
   .createLogicalDevice, .createSwapchain, .createRenderPass, .createGraphicsPipeline]

/-- A sequence of step calls inside the `try` block: each step is entered and run in
turn; the first error thrown leaves the block, and nothing is defined after a step
whose behaviour is not. -/
def runSteps (p : Platform) : List InitStep → Renderer → Outcome
  | [], r => (r, .returned)
  | s :: rest, r =>
    match runStep p s (r.emit (.step s)) with
    | (r, .returned) => runSteps p rest r
    | (r, .threw e) => (r, .threw e)
    | (r, .undefined) => (r, .undefined)

/-- The value `EXIT_SUCCESS`. -/
def EXIT_SUCCESS : Int := 0
/-- The value `EXIT_FAILURE`. -/
def EXIT_FAILURE : Int := 1

/-- The function `VulkanRenderer::init`: the value returned and the renderer it leaves.
The `catch` clause prints the error and returns `EXIT_FAILURE`. No value is returned
(`none`) by an execution that reaches undefined behaviour. -/
def init (p : Platform) : Option Int × Renderer :=
  match runSteps p initSteps {} with
  | (r, .returned) => (some EXIT_SUCCESS, r)
  | (r, .threw _) => (some EXIT_FAILURE, r)
  | (r, .undefined) => (none, r)

/-- The function `VulkanRenderer::cleanup`: the destroy calls it issues, in order. -/
def cleanup (validationEnabled : Bool) (r : Renderer) : List Event :=
  [.destroy .graphicsPipeline, .destroy .pipelineLayout, .destroy .renderPass]
    ++ r.swapchainImages.map (fun image => Event.destroy (.imageView image))
    ++ [.destroy .swapchain, .destroy .surface, .destroy .logicalDevice]
    ++ (if validationEnabled then [.destroy .debugMessenger] else [])
    ++ [.destroy .vulkanInstance]

/-! ## Specification-side definitions for initialization and teardown -/

/-- The steps entered, in order, in a sequence of events. -/
def stepsEntered (calls : List Event) : List InitStep :=
  calls.filterMap fun e => match e with
    | .step s => some s
    | _ => none

/-- The objects created, in creation order, in a sequence of events. -/
def createdObjects (calls : List Event) : List VkObject :=
  calls.filterMap fun e => match e with
    | .create o => some o
    | _ => none

/-- The objects destroyed, in order, in a sequence of events. -/
def destroyedObjects (calls : List Event) : List VkObject :=
  calls.filterMap fun e => match e with
    | .destroy o => some o
    | _ => none

/-- The objects created in a sequence of events and not destroyed in it, in creation
order: the objects left for teardown. -/
def remainingObjects (calls : List Event) : List VkObject :=
  (createdObjects calls).filter fun o => !(destroyedObjects calls).contains o

/-- How a step ends on this platform. A step ends the same way whatever the renderer it
is given, so the step is run from the empty renderer. -/
def stepCompletion (p : Platform) (s : InitStep) : Completion :=
  (runStep p s {}).2

/-- Whether a step succeeds (returns) on this platform. -/
def stepSucceeds (p : Platform) (s : InitStep) : Bool :=
  decide (stepCompletion p s = .returned)

/-- A platform on which every step succeeds, with the given validation setting and
number of swapchain images. -/
def workingPlatform (validationEnabled : Bool) (swapchainImageCount : Nat) : Platform :=
  { validationEnabled := validationEnabled
    validationLayerSupport := true
    instanceExtensionSupport := true
    createInstanceSuccess := true
    createDebugMessengerSuccess := true
    createSurfaceSuccess := true
    deviceList :=
      [{ queueFamilyList := [⟨1, 1⟩], presentationSupport := fun _ => true,
         extensions := ["VK_KHR_swapchain"],
         surfaceCapabilities := ⟨2, 0, ⟨800, 600⟩, ⟨1, 1⟩, ⟨4096, 4096⟩⟩,
         formats := [⟨44, 0⟩], presentationModes := [2] }]
    deviceExtensions := ["VK_KHR_swapchain"]
    createDeviceSuccess := true
    framebufferSize := (800, 600)
    createSwapchainSuccess := true
    swapchainImageCount := swapchainImageCount
    createImageViewSuccess := fun _ => true
    createRenderPassSuccess := true
    readVertexShader := true
    readFragmentShader := true
    createVertexShaderModuleSuccess := true
    createFragmentShaderModuleSuccess := true
    createPipelineLayoutSuccess := true
    createGraphicsPipelineSuccess := true }

/-- The mirror of a subpass dependency: source and destination exchanged, for the
subpass, the stage mask and the access mask. -/
def SubpassDependency.mirror (d : SubpassDependency) : SubpassDependency :=
  { srcSubpass := d.dstSubpass
    dstSubpass := d.srcSubpass
    srcStageMask := d.dstStageMask
    dstStageMask := d.srcStageMask
    srcAccessMask := d.dstAccessMask
    dstAccessMask := d.srcAccessMask
    dependencyFlags := d.dependencyFlags }

/-- A device that reports no extension. -/
def bareDevice : PhysicalDevice :=
  { queueFamilyList := [⟨1, 1⟩], presentationSupport := fun _ => true, extensions := [],
    surfaceCapabilities := ⟨2, 0, ⟨800, 600⟩, ⟨1, 1⟩, ⟨4096, 4096⟩⟩,
    formats := [⟨44, 0⟩], presentationModes := [2] }

/-- The renderer `r` continued by what an execution started from the empty renderer
did: its events after those of `r`, its stored images after those of `r`. -/
def Renderer.append (r d : Renderer) : Renderer :=
  { calls := r.calls ++ d.calls, swapchainImages := r.swapchainImages ++ d.swapchainImages }

/-- The steps of a sequence up to and including the first that does not return, in
order; the whole sequence when every step returns. -/
def stepsUntilStop (p : Platform) : List InitStep → List InitStep
  | [] => []
  | s :: rest => if stepSucceeds p s then s :: stepsUntilStop p rest else [s]

/-- How a sequence of steps ends: as its first step that does not return, and by
returning when every step returns. -/
def stepsCompletion (p : Platform) : List InitStep → Completion
  | [] => .returned
  | s :: rest => if stepSucceeds p s then stepsCompletion p rest else stepCompletion p s

/-- Whether `createSwapchain` reaches its call of `vkCreateSwapchainKHR` with every read
defined: the device handle is set, `formats[0]` is in range, and no family index is read
through a pointer to an array that no longer exists. -/
def swapchainCallDefined (physicalDevice : Option PhysicalDevice) (window : Int × Int) :
    Bool :=
  match physicalDevice with
  | none => false
  | some device =>
    match swapchainCreateInfo device window with
    | none => false
    | some swapChainCreateInfo => swapChainCreateInfo.sharing.familyIndices.isSome

/-- The events of a step run on its own: the platform calls it makes. -/
def stepCalls (p : Platform) (s : InitStep) : List Event :=
  (runStep p s {}).1.calls

/-- The events of the given steps run one after another with nothing in between: each
step is entered, then makes its own platform calls. -/
def tracedSteps (p : Platform) : List InitStep → List Event
  | [] => []
  | s :: rest => Event.step s :: (stepCalls p s ++ tracedSteps p rest)

/-- The images stored in `m_swapchainImages` by the given steps run one after another. -/
def storedImages (p : Platform) : List InitStep → List Nat
  | [] => []
  | s :: rest => (runStep p s {}).1.swapchainImages ++ storedImages p rest

/-- The objects that remain after an initialization in which every step succeeded, in
creation order, for a validation setting and a number of swapchain images. -/
def creationOrder (validationEnabled : Bool) (swapchainImageCount : Nat) : List VkObject :=
  [.vulkanInstance] ++ (if validationEnabled then [.debugMessenger] else [])
    ++ [.surface, .logicalDevice, .swapchain]
    ++ (List.range swapchainImageCount).map VkObject.imageView
    ++ [.renderPass, .pipelineLayout, .graphicsPipeline]

/-- The objects destroyed by `cleanup`, in the order of its statements, for a validation
setting and a number of stored swapchain images. -/
def teardownOrder (validationEnabled : Bool) (swapchainImageCount : Nat) : List VkObject :=
  [.graphicsPipeline, .pipelineLayout, .renderPass]
    ++ (List.range swapchainImageCount).map VkObject.imageView
    ++ [.swapchain, .surface, .logicalDevice]
    ++ (if validationEnabled then [.debugMessenger] else [])
    ++ [.vulkanInstance]

/-! ## Instance extension support (`checkInstanceExtensionSupport`) -/

/-- The enumerator `VK_SUCCESS`. -/
def VK_SUCCESS : Int := 0
/-- The enumerator `VK_INCOMPLETE`. -/
def VK_INCOMPLETE : Int := 5

/-- The answers of `vkEnumerateInstanceExtensionProperties`: the result and the count
of the count query, and for each populate call, numbered from 0, its result and the
extension names it writes. -/
structure InstanceExtensionQuery where
  countResult : Int
  extensionsCount : Nat
  populate : Nat → Int × List String

/-- The `do ... while (vkRes == VK_INCOMPLETE)` loop of `checkInstanceExtensionSupport`,
with `calls` populate calls made so far. The body declares its own `vkRes` for the
result of the populate call; the condition reads the `vkRes` of the function, which
holds the result of the count query. A populate call writes at most `extensionsCount`
names at the start of the array and stores the number written in `extensionsCount`.
The result is the array and the number of populate calls made, or `none` when the
fuel runs out. -/
def populateLoop (q : InstanceExtensionQuery) :
    Nat → Nat → Nat → List String → Option (List String × Nat)
  | 0, _, _, _ => none
  | fuel + 1, calls, extensionsCount, extensions =>
    let _vkRes := (q.populate calls).1
    let written := (q.populate calls).2.take extensionsCount
    let extensions := written ++ extensions.drop written.length
    let extensionsCount := written.length
    if q.countResult = VK_INCOMPLETE then
      populateLoop q fuel (calls + 1) extensionsCount extensions
    else some (extensions, calls + 1)

/-- The function `VulkanRenderer::checkInstanceExtensionSupport`: the value returned and
the number of populate calls made, or `none` when the fuel runs out. The array is
created with `extensionsCount` entries of empty name. -/
def checkInstanceExtensionSupport (q : InstanceExtensionQuery) (fuel : Nat)
    (extensionsToCheck : List String) : Option (Bool × Nat) :=
  let extensionsCount := q.extensionsCount
  let extensions := List.replicate extensionsCount ""
  let populated :=
    if extensionsCount > 0 then populateLoop q fuel 0 extensionsCount extensions
    else some (extensions, 0)
  match populated with
  | none => none
  | some (extensions, calls) =>
    some (extensionsToCheck.all fun checkExtension =>
            extensions.any fun extension => checkExtension == extension,
          calls)

/-- The names written by the first populate call into an array of `extensionsCount`
entries. -/
def writtenNames (q : InstanceExtensionQuery) : List String :=
  (q.populate 0).2.take q.extensionsCount

/-- The names held by the array after the first populate call: the names written,
then the entries left with their empty name. -/
def retrievedNames (q : InstanceExtensionQuery) : List String :=
  writtenNames q ++ List.replicate (q.extensionsCount - (writtenNames q).length) ""

/-! ## The scan of `getQueueFamilies` -/

/-- The loop processes a prefix of the families: it returns the indices assigned over
that prefix and queries exactly its family indices; no proper non-empty prefix of it
gives valid indices, and it is the whole list unless its indices are valid. -/
theorem scanFamilies_prefix (sup : Nat → Bool) (fams : List QueueFamilyProperties) :
    ∀ (idx : Nat) (ind : QueueFamilyIndices) (log : List Nat),
      ∃ m, m ≤ fams.length ∧ (fams ≠ [] → 0 < m) ∧
        scanFamilies sup fams idx ind log
          = (assignFamilies sup (fams.take m) idx ind, log ++ List.range' idx m) ∧
        (∀ j, j + 1 < m → (assignFamilies sup (fams.take (j + 1)) idx ind).isValid = false) ∧
        (m < fams.length → (assignFamilies sup (fams.take m) idx ind).isValid = true) := by
  induction fams with
  | nil =>
    intro idx ind log
    exact ⟨0, le_refl _, fun h => absurd rfl h, by simp [scanFamilies, assignFamilies],
      fun j hj => absurd hj (Nat.not_lt_zero _), fun h => absurd h (Nat.not_lt_zero _)⟩
  | cons qf rest ih =>
    intro idx ind log
    by_cases hv : (assignFamily sup idx qf ind).isValid = true
    · refine ⟨1, by simp, fun _ => Nat.one_pos, ?_, ?_, ?_⟩
      · simp [scanFamilies, assignFamilies, hv]
      · intro j hj
        omega
      · intro _
        simpa [assignFamilies] using hv
    · obtain ⟨m, hm, _, hscan, hbefore, hstop⟩ :=
        ih (idx + 1) (assignFamily sup idx qf ind) (log ++ [idx])
      refine ⟨m + 1, by simpa using hm, fun _ => Nat.succ_pos _, ?_, ?_, ?_⟩
      · simp only [scanFamilies, hv, hscan, List.take_succ_cons, assignFamilies]
        simp [List.range'_succ]
      · intro j hj
        cases j with
        | zero => simpa [assignFamilies] using hv
        | succ j =>
          have := hbefore j (by omega)
          simpa [assignFamilies] using this
      · intro hlt
        have := hstop (by simpa using hlt)
        simpa [assignFamilies] using this

theorem assignFamily_graphicsFamily (sup : Nat → Bool) (idx : Nat)
    (qf : QueueFamilyProperties) (ind : QueueFamilyIndices) :
    (assignFamily sup idx qf ind).graphicsFamily
      = if graphicsMatch qf = true then (idx : Int) else ind.graphicsFamily := by
  unfold assignFamily
  by_cases hg : graphicsMatch qf = true <;> by_cases hp : presentationMatch sup idx qf = true <;>
    simp [hg, hp]

theorem assignFamily_presentationFamily (sup : Nat → Bool) (idx : Nat)
    (qf : QueueFamilyProperties) (ind : QueueFamilyIndices) :
    (assignFamily sup idx qf ind).presentationFamily
      = if presentationMatch sup idx qf = true then (idx : Int) else ind.presentationFamily := by
  unfold assignFamily
  by_cases hg : graphicsMatch qf = true <;> by_cases hp : presentationMatch sup idx qf = true <;>
    simp [hg, hp]

/-- The graphics index after assigning over a list of families numbered from `idx`:
it is at least the index of every matching family, and it is either the index it
started from or the index of a matching family. -/
theorem assignFamilies_graphicsFamily (sup : Nat → Bool) (fams : List QueueFamilyProperties) :
    ∀ (idx : Nat) (ind : QueueFamilyIndices), ind.graphicsFamily < (idx : Int) →
      ind.graphicsFamily ≤ (assignFamilies sup fams idx ind).graphicsFamily ∧
      (assignFamilies sup fams idx ind).graphicsFamily < ((idx + fams.length : Nat) : Int) ∧
      (∀ j qf, fams[j]? = some qf → graphicsMatch qf = true →
        ((idx + j : Nat) : Int) ≤ (assignFamilies sup fams idx ind).graphicsFamily) ∧
      ((assignFamilies sup fams idx ind).graphicsFamily = ind.graphicsFamily ∨
        ∃ j qf, fams[j]? = some qf ∧ graphicsMatch qf = true ∧
          (assignFamilies sup fams idx ind).graphicsFamily = ((idx + j : Nat) : Int)) := by
  induction fams with
  | nil =>
    intro idx ind h
    simp only [assignFamilies]
    exact ⟨le_refl _, by simpa using h, by simp, Or.inl trivial⟩
  | cons qf rest ih =>
    intro idx ind h
    have hg := assignFamily_graphicsFamily sup idx qf ind
    have hlt : (assignFamily sup idx qf ind).graphicsFamily < ((idx + 1 : Nat) : Int) := by
      rw [hg]; split <;> push_cast <;> omega
    obtain ⟨h1, h2, h3, h4⟩ := ih (idx + 1) (assignFamily sup idx qf ind) hlt
    simp only [assignFamilies]
    refine ⟨?_, ?_, ?_, ?_⟩
    · refine le_trans ?_ h1
      rw [hg]; split <;> omega
    · simp only [List.length_cons]
      have : idx + 1 + rest.length = idx + (rest.length + 1) := by omega
      rw [← this]; exact h2
    · intro j qf' hj hm
      cases j with
      | zero =>
        simp only [List.getElem?_cons_zero, Option.some.injEq] at hj
        subst hj
        rw [hg, if_pos hm] at h1
        simpa using h1
      | succ j =>
        simp only [List.getElem?_cons_succ] at hj
        have := h3 j qf' hj hm
        have e : idx + 1 + j = idx + (j + 1) := by omega
        rw [← e]; exact this
    · rcases h4 with h4 | ⟨j, qf', hj, hm, he⟩
      · by_cases hm : graphicsMatch qf = true
        · right
          refine ⟨0, qf, by simp, hm, ?_⟩
          rw [h4, hg, if_pos hm]; simp
        · left
          rw [h4, hg, if_neg hm]
      · right
        refine ⟨j + 1, qf', by simpa using hj, hm, ?_⟩
        have e : idx + 1 + j = idx + (j + 1) := by omega
        rw [← e]; exact he

/-- The presentation index after assigning over a list of families numbered from
`idx`, as `assignFamilies_graphicsFamily`. -/
theorem assignFamilies_presentationFamily (sup : Nat → Bool)
    (fams : List QueueFamilyProperties) :
    ∀ (idx : Nat) (ind : QueueFamilyIndices), ind.presentationFamily < (idx : Int) →
      ind.presentationFamily ≤ (assignFamilies sup fams idx ind).presentationFamily ∧
      (assignFamilies sup fams idx ind).presentationFamily < ((idx + fams.length : Nat) : Int) ∧
      (∀ j qf, fams[j]? = some qf → presentationMatch sup (idx + j) qf = true →
        ((idx + j : Nat) : Int) ≤ (assignFamilies sup fams idx ind).presentationFamily) ∧
      ((assignFamilies sup fams idx ind).presentationFamily = ind.presentationFamily ∨
        ∃ j qf, fams[j]? = some qf ∧ presentationMatch sup (idx + j) qf = true ∧
          (assignFamilies sup fams idx ind).presentationFamily = ((idx + j : Nat) : Int)) := by
  induction fams with
  | nil =>
    intro idx ind h
    simp only [assignFamilies]
    exact ⟨le_refl _, by simpa using h, by simp, Or.inl trivial⟩
  | cons qf rest ih =>
    intro idx ind h
    have hg := assignFamily_presentationFamily sup idx qf ind
    have hlt : (assignFamily sup idx qf ind).presentationFamily < ((idx + 1 : Nat) : Int) := by
      rw [hg]; split <;> push_cast <;> omega
    obtain ⟨h1, h2, h3, h4⟩ := ih (idx + 1) (assignFamily sup idx qf ind) hlt
    simp only [assignFamilies]
    refine ⟨?_, ?_, ?_, ?_⟩
    · refine le_trans ?_ h1
      rw [hg]; split <;> omega
    · simp only [List.length_cons]
      have : idx + 1 + rest.length = idx + (rest.length + 1) := by omega
      rw [← this]; exact h2
    · intro j qf' hj hm
      cases j with
      | zero =>
        simp only [List.getElem?_cons_zero, Option.some.injEq] at hj
        subst hj
        rw [Nat.add_zero] at hm
        rw [hg, if_pos hm] at h1
        simpa using h1
      | succ j =>
        simp only [List.getElem?_cons_succ] at hj
        have e : idx + 1 + j = idx + (j + 1) := by omega
        have := h3 j qf' hj (by rw [e]; exact hm)
        rw [← e]; exact this
    · rcases h4 with h4 | ⟨j, qf', hj, hm, he⟩
      · by_cases hm : presentationMatch sup idx qf = true
        · right
          refine ⟨0, qf, by simp, by simpa using hm, ?_⟩
          rw [h4, hg, if_pos hm]; simp
        · left
          rw [h4, hg, if_neg hm]
      · right
        have e : idx + 1 + j = idx + (j + 1) := by omega
        refine ⟨j + 1, qf', by simpa using hj, by rw [← e]; exact hm, ?_⟩
        rw [← e]; exact he

/-- When family `k` is the first after whose processing both indices are assigned, the
scan returns the indices held at that point and has queried the families `0 .. k`. -/
theorem getQueueFamiliesTraced_of_stop (sup : Nat → Bool) (fams : List QueueFamilyProperties)
    (k : Nat) (hk : k < fams.length) (hv : (indicesAfter sup fams k).isValid = true)
    (hfirst : ∀ j, j < k → (indicesAfter sup fams j).isValid = false) :
    getQueueFamiliesTraced fams sup = (indicesAfter sup fams k, List.range (k + 1)) := by
  obtain ⟨m, _, _, hscan, hbefore, hstop⟩ := scanFamilies_prefix sup fams 0 {} []
  have hne : fams ≠ [] := by
    intro h
    simp [h] at hk
  have hm : m = k + 1 := by
    rcases Nat.lt_trichotomy m (k + 1) with h | h | h
    · have hpos : 0 < m := by
        rcases Nat.eq_zero_or_pos m with h0 | h0
        · subst h0
          have := hstop (by omega)
          simp [assignFamilies, QueueFamilyIndices.isValid] at this
        · exact h0
      have h1 := hstop (by omega)
      have h2 := hfirst (m - 1) (by omega)
      unfold indicesAfter at h2
      rw [show m - 1 + 1 = m by omega, h1] at h2
      cases h2
    · exact h
    · have := hbefore k h
      unfold indicesAfter at hv
      rw [hv] at this
      cases this
  subst hm
  unfold getQueueFamiliesTraced indicesAfter
  rw [hscan, List.range_eq_range']
  simp

/-! ## Queue family resolution: the claims -/

/-- C1 (as stated, refuted): with families 0 and 1 both graphics-capable and family 2
the only one with presentation support, family 0 is scanned and matches, yet the
graphics index returned is 1: the later matching family has replaced the first. -/
theorem getQueueFamilies_first_match_fails :
    graphicsMatch ⟨1, 1⟩ = true ∧
    0 ∈ (getQueueFamiliesTraced [⟨1, 1⟩, ⟨1, 1⟩, ⟨0, 1⟩] (fun i => i == 2)).2 ∧
    (getQueueFamilies [⟨1, 1⟩, ⟨1, 1⟩, ⟨0, 1⟩] (fun i => i == 2)).graphicsFamily = 1 ∧
    (getQueueFamilies [⟨1, 1⟩, ⟨1, 1⟩, ⟨0, 1⟩] (fun i => i == 2)).graphicsFamily ≠ 0 := by
  decide

/-- C1 (amended): for every queue-family list and presentation-support answers, the
graphics index returned by getQueueFamilies is the highest-index scanned family that
has at least one queue and the graphics bit (it is at least the index of every such
scanned family, and it is one of them unless it is unset, -1), and the presentation
index is likewise the highest-index scanned family with at least one queue and
presentation support: a later scanned matching family replaces an earlier one. -/
theorem getQueueFamilies_last_scanned_match (fams : List QueueFamilyProperties)
    (sup : Nat → Bool) :
    (∀ i ∈ (getQueueFamiliesTraced fams sup).2, ∀ qf, fams[i]? = some qf →
        graphicsMatch qf = true → (i : Int) ≤ (getQueueFamilies fams sup).graphicsFamily) ∧
    ((getQueueFamilies fams sup).graphicsFamily = -1 ∨
      ∃ i ∈ (getQueueFamiliesTraced fams sup).2, ∃ qf, fams[i]? = some qf ∧
        graphicsMatch qf = true ∧ (getQueueFamilies fams sup).graphicsFamily = (i : Int)) ∧
    (∀ i ∈ (getQueueFamiliesTraced fams sup).2, ∀ qf, fams[i]? = some qf →
        presentationMatch sup i qf = true →
        (i : Int) ≤ (getQueueFamilies fams sup).presentationFamily) ∧
    ((getQueueFamilies fams sup).presentationFamily = -1 ∨
      ∃ i ∈ (getQueueFamiliesTraced fams sup).2, ∃ qf, fams[i]? = some qf ∧
        presentationMatch sup i qf = true ∧
        (getQueueFamilies fams sup).presentationFamily = (i : Int)) := by
  obtain ⟨m, hm, _, hscan, _, _⟩ := scanFamilies_prefix sup fams 0 {} []
  have hlog : (getQueueFamiliesTraced fams sup).2 = List.range' 0 m := by
    unfold getQueueFamiliesTraced
    rw [hscan]; simp
  have hres : getQueueFamilies fams sup = assignFamilies sup (fams.take m) 0 {} := by
    unfold getQueueFamilies getQueueFamiliesTraced
    rw [hscan]
  have htake : ∀ i qf, i < m → fams[i]? = some qf → (fams.take m)[i]? = some qf := by
    intro i qf hi h
    rw [List.getElem?_take_of_lt hi]; exact h
  have hback : ∀ i qf, (fams.take m)[i]? = some qf → i < m ∧ fams[i]? = some qf := by
    intro i qf h
    have hi : i < m := by
      by_contra hge
      rw [List.getElem?_eq_none (by simp; omega)] at h
      cases h
    exact ⟨hi, by rw [← List.getElem?_take_of_lt hi]; exact h⟩
  obtain ⟨_, _, g3, g4⟩ := assignFamilies_graphicsFamily sup (fams.take m) 0 {} (by decide)
  obtain ⟨_, _, p3, p4⟩ := assignFamilies_presentationFamily sup (fams.take m) 0 {} (by decide)
  rw [hlog, hres]
  simp only [List.mem_range'_1, Nat.zero_add, Nat.zero_le, true_and] at *
  refine ⟨?_, ?_, ?_, ?_⟩
  · intro i hi qf hq hmatch
    exact g3 i qf (htake i qf hi hq) hmatch
  · rcases g4 with h | ⟨j, qf, hq, hmatch, he⟩
    · exact Or.inl h
    · exact Or.inr ⟨j, (hback j qf hq).1, qf, (hback j qf hq).2, hmatch, he⟩
  · intro i hi qf hq hmatch
    exact p3 i qf (htake i qf hi hq) hmatch
  · rcases p4 with h | ⟨j, qf, hq, hmatch, he⟩
    · exact Or.inl h
    · exact Or.inr ⟨j, (hback j qf hq).1, qf, (hback j qf hq).2, hmatch, he⟩

/-- The amended C1 at families 0 and 1 graphics-capable, family 2 presentation-capable:
family 1 is scanned and matches, so the graphics index returned is at least 1. -/
theorem getQueueFamilies_last_scanned_match_witness :
    (1 : Int) ≤ (getQueueFamilies [⟨1, 1⟩, ⟨1, 1⟩, ⟨0, 1⟩] (fun i => i == 2)).graphicsFamily :=
  (getQueueFamilies_last_scanned_match [⟨1, 1⟩, ⟨1, 1⟩, ⟨0, 1⟩] (fun i => i == 2)).1
    1 (by decide) ⟨1, 1⟩ (by decide) (by decide)

/-- C5: queue family resolution short-circuits. If `k` is the first family index after
whose processing both indices are assigned, then getQueueFamilies returns what it
returns on the prefix of length `k + 1` (the indices held after family `k`), and the
families examined and queried for presentation support are exactly `0 .. k`. In
particular, with family 0 graphics-only and family 1 presentation-only, followed by any
further families, the result is graphics = 0, presentation = 1 after querying families
0 and 1 only. -/
theorem getQueueFamilies_short_circuit :
    (∀ (fams : List QueueFamilyProperties) (sup : Nat → Bool) (k : Nat), k < fams.length →
      (indicesAfter sup fams k).isValid = true →
      (∀ j, j < k → (indicesAfter sup fams j).isValid = false) →
        getQueueFamiliesTraced fams sup = getQueueFamiliesTraced (fams.take (k + 1)) sup ∧
        getQueueFamilies fams sup = indicesAfter sup fams k ∧
        (getQueueFamiliesTraced fams sup).2 = List.range (k + 1)) ∧
    (∀ (f0 f1 : QueueFamilyProperties) (rest : List QueueFamilyProperties) (sup : Nat → Bool),
      graphicsMatch f0 = true → presentationMatch sup 0 f0 = false →
      graphicsMatch f1 = false → presentationMatch sup 1 f1 = true →
        getQueueFamiliesTraced (f0 :: f1 :: rest) sup
          = ({ graphicsFamily := 0, presentationFamily := 1 }, [0, 1])) := by
  constructor
  · intro fams sup k hk hv hfirst
    have hfull := getQueueFamiliesTraced_of_stop sup fams k hk hv hfirst
    have hsame : ∀ j, j ≤ k → indicesAfter sup (fams.take (k + 1)) j = indicesAfter sup fams j := by
      intro j hj
      unfold indicesAfter
      rw [List.take_take, Nat.min_eq_left (by omega)]
    have hpre := getQueueFamiliesTraced_of_stop sup (fams.take (k + 1)) k
      (by rw [List.length_take]; omega) (by rw [hsame k (le_refl k)]; exact hv)
      (fun j hj => by rw [hsame j (by omega)]; exact hfirst j hj)
    rw [hsame k (le_refl k)] at hpre
    refine ⟨by rw [hfull, hpre], ?_, by rw [hfull]⟩
    unfold getQueueFamilies
    rw [hfull]
  · intro f0 f1 rest sup hg0 hp0 hg1 hp1
    simp [getQueueFamiliesTraced, scanFamilies, assignFamily, hg0, hp0, hg1, hp1,
      QueueFamilyIndices.isValid]

/-- C5 at the list graphics-only, presentation-only, graphics-and-presentation: the scan
stops at family 1, so the result is that of the two-family prefix and family 2 is
never queried. -/
theorem getQueueFamilies_short_circuit_witness :
    (getQueueFamiliesTraced [⟨1, 1⟩, ⟨0, 1⟩, ⟨1, 1⟩] (fun i => decide (1 ≤ i))
        = getQueueFamiliesTraced ([⟨1, 1⟩, ⟨0, 1⟩, ⟨1, 1⟩].take (1 + 1)) (fun i => decide (1 ≤ i)) ∧
      getQueueFamilies [⟨1, 1⟩, ⟨0, 1⟩, ⟨1, 1⟩] (fun i => decide (1 ≤ i))
        = indicesAfter (fun i => decide (1 ≤ i)) [⟨1, 1⟩, ⟨0, 1⟩, ⟨1, 1⟩] 1 ∧
      (getQueueFamiliesTraced [⟨1, 1⟩, ⟨0, 1⟩, ⟨1, 1⟩] (fun i => decide (1 ≤ i))).2
        = List.range (1 + 1)) ∧
    getQueueFamiliesTraced [⟨1, 1⟩, ⟨0, 1⟩, ⟨1, 1⟩] (fun i => decide (1 ≤ i))
      = ({ graphicsFamily := 0, presentationFamily := 1 }, [0, 1]) :=
  ⟨getQueueFamilies_short_circuit.1 [⟨1, 1⟩, ⟨0, 1⟩, ⟨1, 1⟩] (fun i => decide (1 ≤ i)) 1
    (by decide) (by decide) (fun j hj => by
      have h0 : j = 0 := by omega
      subst h0
      decide),
   getQueueFamilies_short_circuit.2 ⟨1, 1⟩ ⟨0, 1⟩ [⟨1, 1⟩] (fun i => decide (1 ≤ i))
    (by decide) (by decide) (by decide) (by decide)⟩

/-! ## Physical device selection: the claims -/

theorem selectDevice_of_none_suitable {α : Type} (suitable : α → Bool) (devs : List α)
    (prev : Option α) (h : ∀ d ∈ devs, suitable d = false) :
    selectDevice suitable devs prev = prev := by
  induction devs with
  | nil => rfl
  | cons d rest ih =>
    have hd : suitable d = false := h d (List.mem_cons_self _ _)
    simp only [selectDevice, hd]
    exact ih (fun e he => h e (List.mem_cons_of_mem _ he))

theorem selectDevice_of_first_suitable {α : Type} (suitable : α → Bool) (pre : List α) (d : α)
    (post : List α) (prev : Option α) (hpre : ∀ e ∈ pre, suitable e = false)
    (hd : suitable d = true) :
    selectDevice suitable (pre ++ d :: post) prev = some d := by
  induction pre with
  | nil => simp [selectDevice, hd]
  | cons e rest ih =>
    have he : suitable e = false := hpre e (List.mem_cons_self _ _)
    simp only [List.cons_append, selectDevice, he]
    exact ih (fun x hx => hpre x (List.mem_cons_of_mem _ hx))

/-- C2: device selection is first-fit. For every non-empty enumerated device list and
every suitability predicate, if the device at position `i` is suitable and every
earlier device is unsuitable, getPhysicalDevice assigns that device; if no device of
the list is suitable, the slot keeps the value it had and no error is raised. -/
theorem getPhysicalDevice_first_fit {α : Type} (devs : List α) (suitable : α → Bool)
    (prev : Option α) (hne : devs ≠ []) :
    (∀ (i : Nat) (d : α), devs[i]? = some d → suitable d = true →
      (∀ (j : Nat) (e : α), j < i → devs[j]? = some e → suitable e = false) →
        getPhysicalDevice devs suitable prev = .ok (some d)) ∧
    ((∀ d ∈ devs, suitable d = false) → getPhysicalDevice devs suitable prev = .ok prev) := by
  have hlen : devs.length ≠ 0 := by
    intro h
    exact hne (List.length_eq_zero.mp h)
  constructor
  · intro i d hi hd hbefore
    have hlt : i < devs.length := by
      by_contra hge
      rw [List.getElem?_eq_none (by omega)] at hi
      cases hi
    have hget : devs[i] = d := by
      rw [List.getElem?_eq_getElem hlt] at hi
      exact Option.some.inj hi
    have hsplit : devs = devs.take i ++ d :: devs.drop (i + 1) := by
      rw [← hget, List.getElem_cons_drop devs i hlt, List.take_append_drop]
    have hpre : ∀ e ∈ devs.take i, suitable e = false := by
      intro e he
      obtain ⟨j, hj, hje⟩ := List.getElem_of_mem he
      rw [List.length_take] at hj
      have hji : j < i := by omega
      rw [List.getElem_take] at hje
      exact hbefore j e hji (by rw [List.getElem?_eq_getElem (by omega), hje])
    unfold getPhysicalDevice
    simp only [hlen, if_false]
    rw [hsplit, selectDevice_of_first_suitable suitable _ d _ prev hpre hd]
  · intro hnone
    unfold getPhysicalDevice
    simp only [hlen, if_false]
    rw [selectDevice_of_none_suitable suitable devs prev hnone]

/-- C2 at the list 1, 3, 4, 6 with the even devices suitable: device 4 at position 2
is assigned; with no device suitable the slot stays unset. -/
theorem getPhysicalDevice_first_fit_witness :
    getPhysicalDevice [1, 3, 4, 6] (fun n => n % 2 == 0) none = .ok (some 4) ∧
    getPhysicalDevice [1, 3] (fun n => n % 2 == 0) none = .ok none :=
  ⟨(getPhysicalDevice_first_fit [1, 3, 4, 6] (fun n => n % 2 == 0) none (by decide)).1 2 4
      (by decide) (by decide) (fun j e hj hje => by
        have hcases : j = 0 ∨ j = 1 := by omega
        rcases hcases with h | h <;> subst h <;> simp at hje <;> subst hje <;> decide),
   (getPhysicalDevice_first_fit [1, 3] (fun n => n % 2 == 0) none (by decide)).2
      (by decide)⟩

/-- C3: getPhysicalDevice fails, with the error NoGpuFound, if and only if the platform
enumerates zero physical devices; for every non-empty enumeration it returns a value
of the slot and raises no error. -/
theorem getPhysicalDevice_error_iff {α : Type} (devs : List α) (suitable : α → Bool)
    (prev : Option α) :
    ((∃ e, getPhysicalDevice devs suitable prev = .error e) ↔ devs.length = 0) ∧
    (getPhysicalDevice devs suitable prev = .error .noGpuFound ↔ devs.length = 0) ∧
    (devs.length ≠ 0 → ∃ slot, getPhysicalDevice devs suitable prev = .ok slot) := by
  simp only [getPhysicalDevice]
  by_cases h : devs.length = 0
  · rw [if_pos h]
    exact ⟨⟨fun _ => h, fun _ => ⟨.noGpuFound, rfl⟩⟩, ⟨fun _ => h, fun _ => rfl⟩,
      fun hne => absurd h hne⟩
  · rw [if_neg h]
    exact ⟨⟨fun ⟨e, he⟩ => (by cases he), fun h0 => absurd h0 h⟩,
      ⟨fun he => (by cases he), fun h0 => absurd h0 h⟩, fun _ => ⟨_, rfl⟩⟩

/-- C3 at a two-device enumeration in which no device is suitable: no error is raised. -/
theorem getPhysicalDevice_error_iff_witness :
    ∃ slot, getPhysicalDevice [1, 3] (fun n => n % 2 == 0) none = .ok slot :=
  (getPhysicalDevice_error_iff [1, 3] (fun n => n % 2 == 0) none).2.2 (by decide)

/-- The extension check accepts exactly when the device reports at least one extension
and every required name is among the reported names. -/
theorem checkDeviceExtensionSupport_eq_true (required : List String) (device : PhysicalDevice) :
    checkDeviceExtensionSupport required device = true ↔
      device.extensions ≠ [] ∧ ∀ r ∈ required, r ∈ device.extensions := by
  simp only [checkDeviceExtensionSupport]
  by_cases h : device.extensions.length ≤ 0
  · have hnil : device.extensions = [] := List.length_eq_zero.mp (Nat.le_zero.mp h)
    simp [hnil]
  · have hne : device.extensions ≠ [] := by
      intro hnil
      simp [hnil] at h
    rw [if_neg h]
    simp [List.all_eq_true, List.any_eq_true, hne]

theorem getSwapchainDetails_formats (device : PhysicalDevice) :
    (getSwapchainDetails device).formats = device.formats := by
  cases hf : device.formats <;> simp [getSwapchainDetails, hf]

theorem getSwapchainDetails_presentationModes (device : PhysicalDevice) :
    (getSwapchainDetails device).presentationModes = device.presentationModes := by
  cases hf : device.presentationModes <;> simp [getSwapchainDetails, hf]

/-- C4: for every device, and a required device-extension set with at least one name
(the set holds the swapchain extension), checkDeviceSuitable returns true if and only if
queue-family resolution yields valid indices, every required device extension is among
the device's reported extensions, and the probed swapchain capabilities have a non-empty
format sequence and a non-empty present-mode set. -/
theorem checkDeviceSuitable_iff (required : List String) (hreq : required ≠ [])
    (device : PhysicalDevice) :
    checkDeviceSuitable required device = true ↔
      (getQueueFamilies device.queueFamilyList device.presentationSupport).isValid = true ∧
      (∀ r ∈ required, r ∈ device.extensions) ∧
      (getSwapchainDetails device).formats ≠ [] ∧
      (getSwapchainDetails device).presentationModes ≠ [] := by
  have hext : checkDeviceExtensionSupport required device = true ↔
      ∀ r ∈ required, r ∈ device.extensions := by
    rw [checkDeviceExtensionSupport_eq_true]
    constructor
    · exact fun h => h.2
    · intro h
      refine ⟨?_, h⟩
      obtain ⟨r, rest, hr⟩ := List.exists_cons_of_ne_nil hreq
      exact List.ne_nil_of_mem (h r (by rw [hr]; exact List.mem_cons_self _ _))
  rw [← hext]
  simp only [checkDeviceSuitable]
  by_cases he : checkDeviceExtensionSupport required device = true
  · simp [he, List.isEmpty_iff]
  · simp [he]

/-- C4 at a device with one graphics-and-presentation family, the swapchain extension,
one format and one present mode: it is suitable. -/
theorem checkDeviceSuitable_iff_witness :
    checkDeviceSuitable ["VK_KHR_swapchain"]
      { queueFamilyList := [⟨1, 1⟩], presentationSupport := fun _ => true,
        extensions := ["VK_KHR_maintenance1", "VK_KHR_swapchain"],
        surfaceCapabilities := ⟨2, 0, ⟨800, 600⟩, ⟨1, 1⟩, ⟨4096, 4096⟩⟩,
        formats := [⟨44, 0⟩], presentationModes := [2] } = true :=
  (checkDeviceSuitable_iff ["VK_KHR_swapchain"] (by decide)
    { queueFamilyList := [⟨1, 1⟩], presentationSupport := fun _ => true,
      extensions := ["VK_KHR_maintenance1", "VK_KHR_swapchain"],
      surfaceCapabilities := ⟨2, 0, ⟨800, 600⟩, ⟨1, 1⟩, ⟨4096, 4096⟩⟩,
      formats := [⟨44, 0⟩], presentationModes := [2] }).2
    ⟨by decide, by decide, by decide, by decide⟩

/-! ## Swapchain configuration: the claims -/

theorem preferredFormat_iff (f : SurfaceFormat) :
    preferredFormat f = true ↔
      (f.format = VK_FORMAT_R8G8B8A8_UNORM ∨ f.format = VK_FORMAT_B8G8R8A8_UNORM) ∧
        f.colorSpace = VK_COLOR_SPACE_SRGB_NONLINEAR_KHR := by
  simp [preferredFormat]

/-- A list with an accepted element splits at its first accepted element, which is the
one `find?` returns. -/
theorem find?_first_split {α : Type} (p : α → Bool) (l : List α) (h : ∃ a ∈ l, p a = true) :
    ∃ pre a post, l = pre ++ a :: post ∧ p a = true ∧ (∀ b ∈ pre, p b = false) ∧
      l.find? p = some a := by
  induction l with
  | nil =>
    obtain ⟨a, ha, _⟩ := h
    cases ha
  | cons x rest ih =>
    by_cases hx : p x = true
    · exact ⟨[], x, rest, rfl, hx, fun b hb => (by cases hb), by simp [List.find?, hx]⟩
    · have hx' : p x = false := by simpa using hx
      obtain ⟨a, ha, hpa⟩ := h
      have hrest : ∃ a ∈ rest, p a = true := by
        rcases List.mem_cons.mp ha with h1 | h1
        · subst h1
          exact absurd hpa hx
        · exact ⟨a, h1, hpa⟩
      obtain ⟨pre, b, post, hsplit, hb, hpre, hfind⟩ := ih hrest
      refine ⟨x :: pre, b, post, by rw [hsplit]; rfl, hb, ?_, by simp [List.find?, hx', hfind]⟩
      intro c hc
      rcases List.mem_cons.mp hc with h1 | h1
      · subst h1
        exact hx'
      · exact hpre c h1

/-- The first branch of `chooseBestSurfaceFormat` is not taken by a sequence that has an
entry accepted by the search loop. -/
theorem not_undefined_of_preferred (formats : List SurfaceFormat)
    (h : ∃ f ∈ formats, preferredFormat f = true) :
    ¬(formats.length = 1 ∧
      (formats[0]?.map fun f => f.format) = some VK_FORMAT_UNDEFINED) := by
  rintro ⟨hlen, hfmt⟩
  obtain ⟨f, hf, hp⟩ := h
  obtain ⟨u, hu⟩ := List.length_eq_one.mp hlen
  subst hu
  have hfu : f = u := by simpa using hf
  subst hfu
  simp only [List.getElem?_cons_zero, Option.map_some', Option.some.injEq] at hfmt
  rw [preferredFormat_iff] at hp
  rw [hfmt] at hp
  simp [VK_FORMAT_UNDEFINED, VK_FORMAT_R8G8B8A8_UNORM, VK_FORMAT_B8G8R8A8_UNORM] at hp

/-- C6: for every format sequence that contains at least one entry whose format is
R8G8B8A8_UNORM or B8G8R8A8_UNORM and whose color space is SRGB_NONLINEAR,
chooseBestSurfaceFormat returns the first such entry in sequence order: the sequence
splits as `pre ++ f :: post` with `f` such an entry and no such entry in `pre`, and the
result is `f`. -/
theorem chooseBestSurfaceFormat_first_preferred (formats : List SurfaceFormat)
    (h : ∃ f ∈ formats,
      (f.format = VK_FORMAT_R8G8B8A8_UNORM ∨ f.format = VK_FORMAT_B8G8R8A8_UNORM) ∧
        f.colorSpace = VK_COLOR_SPACE_SRGB_NONLINEAR_KHR) :
    ∃ pre f post, formats = pre ++ f :: post ∧
      ((f.format = VK_FORMAT_R8G8B8A8_UNORM ∨ f.format = VK_FORMAT_B8G8R8A8_UNORM) ∧
        f.colorSpace = VK_COLOR_SPACE_SRGB_NONLINEAR_KHR) ∧
      (∀ g ∈ pre,
        ¬((g.format = VK_FORMAT_R8G8B8A8_UNORM ∨ g.format = VK_FORMAT_B8G8R8A8_UNORM) ∧
          g.colorSpace = VK_COLOR_SPACE_SRGB_NONLINEAR_KHR)) ∧
      chooseBestSurfaceFormat formats = some f := by
  have h' : ∃ f ∈ formats, preferredFormat f = true := by
    obtain ⟨f, hf, hp⟩ := h
    exact ⟨f, hf, (preferredFormat_iff f).mpr hp⟩
  obtain ⟨pre, f, post, hsplit, hf, hpre, hfind⟩ := find?_first_split preferredFormat formats h'
  refine ⟨pre, f, post, hsplit, (preferredFormat_iff f).mp hf, ?_, ?_⟩
  · intro g hg hpg
    have := hpre g hg
    rw [(preferredFormat_iff g).mpr hpg] at this
    cases this
  · unfold chooseBestSurfaceFormat
    rw [if_neg (not_undefined_of_preferred formats h'), hfind]

/-- C6 at a sequence whose entries 2 and 3 both qualify: entry 2 is returned. -/
theorem chooseBestSurfaceFormat_first_preferred_witness :
    ∃ pre f post, [(⟨3, 5⟩ : SurfaceFormat), ⟨37, 1⟩, ⟨44, 0⟩, ⟨37, 0⟩] = pre ++ f :: post ∧
      ((f.format = VK_FORMAT_R8G8B8A8_UNORM ∨ f.format = VK_FORMAT_B8G8R8A8_UNORM) ∧
        f.colorSpace = VK_COLOR_SPACE_SRGB_NONLINEAR_KHR) ∧
      (∀ g ∈ pre,
        ¬((g.format = VK_FORMAT_R8G8B8A8_UNORM ∨ g.format = VK_FORMAT_B8G8R8A8_UNORM) ∧
          g.colorSpace = VK_COLOR_SPACE_SRGB_NONLINEAR_KHR)) ∧
      chooseBestSurfaceFormat [⟨3, 5⟩, ⟨37, 1⟩, ⟨44, 0⟩, ⟨37, 0⟩] = some f :=
  chooseBestSurfaceFormat_first_preferred [⟨3, 5⟩, ⟨37, 1⟩, ⟨44, 0⟩, ⟨37, 0⟩]
    ⟨⟨37, 0⟩, by decide, by decide⟩

/-- C7: for every format sequence consisting of exactly one entry whose format is
UNDEFINED, whatever its color space, chooseBestSurfaceFormat returns the fixed default
{B8G8R8A8_UNORM, SRGB_NONLINEAR}. -/
theorem chooseBestSurfaceFormat_undefined (colorSpace : Nat) :
    chooseBestSurfaceFormat [{ format := VK_FORMAT_UNDEFINED, colorSpace := colorSpace }]
      = some { format := VK_FORMAT_B8G8R8A8_UNORM,
               colorSpace := VK_COLOR_SPACE_SRGB_NONLINEAR_KHR } := by
  simp [chooseBestSurfaceFormat]

/-- C8: for every format sequence with more than one element and no entry that is
(R8G8B8A8_UNORM or B8G8R8A8_UNORM) with SRGB_NONLINEAR color space,
chooseBestSurfaceFormat returns element 0 of the sequence. -/
theorem chooseBestSurfaceFormat_fallback (formats : List SurfaceFormat)
    (hlen : 1 < formats.length)
    (hno : ∀ f ∈ formats,
      ¬((f.format = VK_FORMAT_R8G8B8A8_UNORM ∨ f.format = VK_FORMAT_B8G8R8A8_UNORM) ∧
        f.colorSpace = VK_COLOR_SPACE_SRGB_NONLINEAR_KHR)) :
    chooseBestSurfaceFormat formats = some formats[0] := by
  have hfind : formats.find? preferredFormat = none := by
    rw [List.find?_eq_none]
    intro f hf hp
    exact hno f hf ((preferredFormat_iff f).mp hp)
  unfold chooseBestSurfaceFormat
  rw [if_neg (fun h => by omega), hfind]
  simp only
  rw [List.getElem?_eq_getElem]

/-- C8 at a two-entry sequence with no preferred entry: entry 0 is returned. -/
theorem chooseBestSurfaceFormat_fallback_witness :
    chooseBestSurfaceFormat [⟨3, 5⟩, ⟨37, 1⟩] = some ⟨3, 5⟩ :=
  chooseBestSurfaceFormat_fallback [⟨3, 5⟩, ⟨37, 1⟩] (by decide) (by decide)

/-- C9: for every present-mode list, chooseBestPresentationMode returns MAILBOX if the
list contains MAILBOX, and otherwise returns FIFO, also when the list is empty or
does not contain FIFO. -/
theorem chooseBestPresentationMode_spec (presentationModes : List Nat) :
    (VK_PRESENT_MODE_MAILBOX_KHR ∈ presentationModes →
      chooseBestPresentationMode presentationModes = VK_PRESENT_MODE_MAILBOX_KHR) ∧
    (VK_PRESENT_MODE_MAILBOX_KHR ∉ presentationModes →
      chooseBestPresentationMode presentationModes = VK_PRESENT_MODE_FIFO_KHR) ∧
    chooseBestPresentationMode [] = VK_PRESENT_MODE_FIFO_KHR := by
  refine ⟨?_, ?_, rfl⟩
  · induction presentationModes with
    | nil =>
      intro h
      cases h
    | cons mode rest ih =>
      intro h
      by_cases hm : mode = VK_PRESENT_MODE_MAILBOX_KHR
      · simp [chooseBestPresentationMode, hm]
      · simp only [chooseBestPresentationMode, hm, if_false]
        rcases List.mem_cons.mp h with h1 | h1
        · exact absurd h1.symm hm
        · exact ih h1
  · induction presentationModes with
    | nil =>
      intro _
      rfl
    | cons mode rest ih =>
      intro h
      have hm : mode ≠ VK_PRESENT_MODE_MAILBOX_KHR := fun e =>
        h (by rw [e]; exact List.mem_cons_self _ _)
      simp only [chooseBestPresentationMode, hm, if_false]
      exact ih (fun hr => h (List.mem_cons_of_mem _ hr))

/-- C9 at a list holding MAILBOX, and at a list holding neither MAILBOX nor FIFO. -/
theorem chooseBestPresentationMode_spec_witness :
    chooseBestPresentationMode [0, 2, 1, 3] = VK_PRESENT_MODE_MAILBOX_KHR ∧
    chooseBestPresentationMode [0, 3] = VK_PRESENT_MODE_FIFO_KHR :=
  ⟨(chooseBestPresentationMode_spec [0, 2, 1, 3]).1 (by decide),
   (chooseBestPresentationMode_spec [0, 3]).2.1 (by decide)⟩

/-- C10: for every surface-capabilities record with currentExtent.width different from
2^32-1 and every window framebuffer size, chooseBestSwapExtent returns currentExtent
exactly, width and height; hence the result is the same for two records that agree on
currentExtent, whatever their extent bounds and the window sizes. -/
theorem chooseBestSwapExtent_current (surfaceCapabilities : SurfaceCapabilities)
    (h : surfaceCapabilities.currentExtent.width ≠ 2 ^ 32 - 1) :
    (∀ window : Int × Int,
      chooseBestSwapExtent surfaceCapabilities window = surfaceCapabilities.currentExtent) ∧
    (∀ (other : SurfaceCapabilities) (window window' : Int × Int),
      other.currentExtent = surfaceCapabilities.currentExtent →
        chooseBestSwapExtent other window' = chooseBestSwapExtent surfaceCapabilities window) := by
  have key : ∀ (caps : SurfaceCapabilities) (window : Int × Int),
      caps.currentExtent = surfaceCapabilities.currentExtent →
        chooseBestSwapExtent caps window = surfaceCapabilities.currentExtent := by
    intro caps window hc
    have hw : caps.currentExtent.width ≠ UINT32_MAX := by
      rw [hc]
      exact h
    unfold chooseBestSwapExtent
    rw [if_pos hw, hc]
  exact ⟨fun window => key surfaceCapabilities window rfl,
    fun other window window' ho => by rw [key other window' ho, key surfaceCapabilities window rfl]⟩

/-- C10 at a record with current extent 800x600 and a window of 3000x100 that lies
outside the extent bounds: the current extent is returned. -/
theorem chooseBestSwapExtent_current_witness :
    chooseBestSwapExtent ⟨2, 0, ⟨800, 600⟩, ⟨1024, 768⟩, ⟨1920, 1080⟩⟩ (3000, 100)
      = ⟨800, 600⟩ :=
  (chooseBestSwapExtent_current ⟨2, 0, ⟨800, 600⟩, ⟨1024, 768⟩, ⟨1920, 1080⟩⟩ (by decide)).1
    (3000, 100)

theorem toUInt32_of_int_range (x : Int) (h0 : 0 ≤ x) (h : x < 2 ^ 31) :
    toUInt32 x = x.toNat := by
  unfold toUInt32
  rw [Int.emod_eq_of_lt h0 (by omega)]

theorem max_min_eq_clampTo (x lo hi : Nat) (h : lo ≤ hi) :
    max lo (min hi x) = clampTo x lo hi := by
  unfold clampTo
  rw [Nat.max_def, Nat.min_def]
  split_ifs <;> omega

/-- C11: for every surface-capabilities record with currentExtent.width equal to 2^32-1
and minImageExtent at most maxImageExtent on each axis, and every non-negative window
framebuffer size (w, h) (values of type int), chooseBestSwapExtent returns
(clamp(w, min.width, max.width), clamp(h, min.height, max.height)), each axis clamped
on its own. In particular a window of 3000x100 with width bounds [64,1920] and height
bounds [64,1080] yields 1920x100. -/
theorem chooseBestSwapExtent_clamped :
    (∀ (surfaceCapabilities : SurfaceCapabilities) (w h : Int),
      surfaceCapabilities.currentExtent.width = 2 ^ 32 - 1 →
      surfaceCapabilities.minImageExtent.width ≤ surfaceCapabilities.maxImageExtent.width →
      surfaceCapabilities.minImageExtent.height ≤ surfaceCapabilities.maxImageExtent.height →
      0 ≤ w → w < 2 ^ 31 → 0 ≤ h → h < 2 ^ 31 →
        chooseBestSwapExtent surfaceCapabilities (w, h)
          = { width := clampTo w.toNat surfaceCapabilities.minImageExtent.width
                surfaceCapabilities.maxImageExtent.width
              height := clampTo h.toNat surfaceCapabilities.minImageExtent.height
                surfaceCapabilities.maxImageExtent.height }) ∧
    (∀ (minImageCount maxImageCount currentHeight : Nat),
      chooseBestSwapExtent
        { minImageCount := minImageCount, maxImageCount := maxImageCount,
          currentExtent := ⟨2 ^ 32 - 1, currentHeight⟩,
          minImageExtent := ⟨64, 64⟩, maxImageExtent := ⟨1920, 1080⟩ } (3000, 100)
        = ⟨1920, 100⟩) := by
  have key : ∀ (surfaceCapabilities : SurfaceCapabilities) (w h : Int),
      surfaceCapabilities.currentExtent.width = 2 ^ 32 - 1 →
      surfaceCapabilities.minImageExtent.width ≤ surfaceCapabilities.maxImageExtent.width →
      surfaceCapabilities.minImageExtent.height ≤ surfaceCapabilities.maxImageExtent.height →
      0 ≤ w → w < 2 ^ 31 → 0 ≤ h → h < 2 ^ 31 →
        chooseBestSwapExtent surfaceCapabilities (w, h)
          = { width := clampTo w.toNat surfaceCapabilities.minImageExtent.width
                surfaceCapabilities.maxImageExtent.width
              height := clampTo h.toNat surfaceCapabilities.minImageExtent.height
                surfaceCapabilities.maxImageExtent.height } := by
    intro caps w h hcur hwidth hheight hw0 hw hh0 hh
    have hnot : ¬(caps.currentExtent.width ≠ UINT32_MAX) := by
      rw [hcur]
      exact fun hne => hne rfl
    simp only [chooseBestSwapExtent]
    rw [if_neg hnot, toUInt32_of_int_range w hw0 hw, toUInt32_of_int_range h hh0 hh,
      max_min_eq_clampTo _ _ _ hwidth, max_min_eq_clampTo _ _ _ hheight]
  refine ⟨key, ?_⟩
  intro minImageCount maxImageCount currentHeight
  rw [key _ 3000 100 rfl (by simp) (by simp) (by decide) (by decide) (by decide) (by decide)]
  simp [clampTo]

/-- C11 at the window 3000x100 with width bounds [64,1920] and height bounds [64,1080]:
the extent is 1920x100. -/
theorem chooseBestSwapExtent_clamped_witness :
    chooseBestSwapExtent ⟨2, 0, ⟨2 ^ 32 - 1, 2 ^ 32 - 1⟩, ⟨64, 64⟩, ⟨1920, 1080⟩⟩ (3000, 100)
      = { width := clampTo (3000 : Int).toNat 64 1920, height := clampTo (100 : Int).toNat 64 1080 } :=
  chooseBestSwapExtent_clamped.1 ⟨2, 0, ⟨2 ^ 32 - 1, 2 ^ 32 - 1⟩, ⟨64, 64⟩, ⟨1920, 1080⟩⟩ 3000 100
    rfl (by decide) (by decide) (by decide) (by decide) (by decide) (by decide)

/-- The image count is the 32-bit sum unless a positive maximum below it replaces it. -/
theorem requestedImageCount_cases (caps : SurfaceCapabilities) :
    (caps.maxImageCount = 0 →
      requestedImageCount caps = (caps.minImageCount + 1) % 2 ^ 32) ∧
    (0 < caps.maxImageCount → caps.maxImageCount < (caps.minImageCount + 1) % 2 ^ 32 →
      requestedImageCount caps = caps.maxImageCount) ∧
    (0 < caps.maxImageCount → (caps.minImageCount + 1) % 2 ^ 32 ≤ caps.maxImageCount →
      requestedImageCount caps = (caps.minImageCount + 1) % 2 ^ 32) := by
  simp only [requestedImageCount]
  refine ⟨fun h => ?_, fun h1 h2 => ?_, fun h1 h2 => ?_⟩
  · rw [if_neg (by omega)]
  · rw [if_pos ⟨h1, h2⟩]
  · rw [if_neg (by omega)]

/-- C12: for every surface-capabilities record, the image count requested by
createSwapchain is minImageCount + 1 (the uint32_t sum), except that when
maxImageCount > 0 and maxImageCount < minImageCount + 1 it is maxImageCount; when
maxImageCount == 0 no clamp is applied. For a record whose sum does not wrap
(minImageCount + 1 < 2^32) the sum is the integer minImageCount + 1. In particular
(min=2, max=0) yields 3 and (min=2, max=2) yields 2. -/
theorem requestedImageCount_spec :
    (∀ caps : SurfaceCapabilities,
      (caps.maxImageCount = 0 →
        requestedImageCount caps = (caps.minImageCount + 1) % 2 ^ 32) ∧
      (0 < caps.maxImageCount → caps.maxImageCount < (caps.minImageCount + 1) % 2 ^ 32 →
        requestedImageCount caps = caps.maxImageCount) ∧
      (0 < caps.maxImageCount → (caps.minImageCount + 1) % 2 ^ 32 ≤ caps.maxImageCount →
        requestedImageCount caps = (caps.minImageCount + 1) % 2 ^ 32)) ∧
    (∀ caps : SurfaceCapabilities, caps.minImageCount + 1 < 2 ^ 32 →
      requestedImageCount caps
        = if 0 < caps.maxImageCount ∧ caps.maxImageCount < caps.minImageCount + 1 then
            caps.maxImageCount
          else caps.minImageCount + 1) ∧
    (∀ current lo hi : Extent2D, requestedImageCount ⟨2, 0, current, lo, hi⟩ = 3) ∧
    (∀ current lo hi : Extent2D, requestedImageCount ⟨2, 2, current, lo, hi⟩ = 2) := by
  refine ⟨requestedImageCount_cases, ?_, ?_, ?_⟩
  · intro caps h
    simp only [requestedImageCount, Nat.mod_eq_of_lt h, gt_iff_lt]
  · intro current lo hi
    simp [requestedImageCount]
  · intro current lo hi
    simp [requestedImageCount]

/-- C12 at the record (min=3, max=8), whose sum does not wrap: the count is 4. -/
theorem requestedImageCount_spec_witness :
    requestedImageCount ⟨3, 8, ⟨800, 600⟩, ⟨1, 1⟩, ⟨4096, 4096⟩⟩
      = if 0 < 8 ∧ 8 < 3 + 1 then 8 else 3 + 1 :=
  requestedImageCount_spec.2.1 ⟨3, 8, ⟨800, 600⟩, ⟨1, 1⟩, ⟨4096, 4096⟩⟩ (by decide)

/-- C13 (as stated, refuted): with minImageCount = 2 and maxImageCount = 2 the image
count chosen is 2, below minImageCount + 1 = 3. -/
theorem requestedImageCount_below_min_plus_one :
    requestedImageCount ⟨2, 2, ⟨800, 600⟩, ⟨1, 1⟩, ⟨4096, 4096⟩⟩ = 2 ∧
    ¬((2 : Nat) + 1 ≤ requestedImageCount ⟨2, 2, ⟨800, 600⟩, ⟨1, 1⟩, ⟨4096, 4096⟩⟩) := by
  decide

/-- C13 (amended): for every surface-capabilities record, the image count chosen by
createSwapchain is at most minImageCount + 1 (the uint32_t sum), and at most maxImageCount
whenever maxImageCount > 0; it equals minImageCount + 1 when maxImageCount == 0 or
maxImageCount is at least minImageCount + 1, and otherwise it is maxImageCount, which
is below minImageCount + 1. -/
theorem requestedImageCount_bounds (caps : SurfaceCapabilities) :
    requestedImageCount caps ≤ (caps.minImageCount + 1) % 2 ^ 32 ∧
    requestedImageCount caps ≤ caps.minImageCount + 1 ∧
    (0 < caps.maxImageCount → requestedImageCount caps ≤ caps.maxImageCount) ∧
    ((caps.maxImageCount = 0 ∨ (caps.minImageCount + 1) % 2 ^ 32 ≤ caps.maxImageCount) →
      requestedImageCount caps = (caps.minImageCount + 1) % 2 ^ 32) ∧
    (0 < caps.maxImageCount → caps.maxImageCount < (caps.minImageCount + 1) % 2 ^ 32 →
      requestedImageCount caps = caps.maxImageCount ∧
        requestedImageCount caps < (caps.minImageCount + 1) % 2 ^ 32) ∧
    (caps.minImageCount + 1 < 2 ^ 32 →
      (caps.minImageCount + 1) % 2 ^ 32 = caps.minImageCount + 1) := by
  obtain ⟨h0, hlt, hge⟩ := requestedImageCount_cases caps
  have hmod : (caps.minImageCount + 1) % 2 ^ 32 ≤ caps.minImageCount + 1 := Nat.mod_le _ _
  have hle : requestedImageCount caps ≤ (caps.minImageCount + 1) % 2 ^ 32 := by
    rcases Nat.eq_zero_or_pos caps.maxImageCount with hz | hpos
    · rw [h0 hz]
    · rcases Nat.lt_or_ge caps.maxImageCount ((caps.minImageCount + 1) % 2 ^ 32) with h | h
      · rw [hlt hpos h]; exact Nat.le_of_lt h
      · rw [hge hpos h]
  refine ⟨hle, le_trans hle hmod, ?_, ?_, ?_, fun h => Nat.mod_eq_of_lt h⟩
  · intro hpos
    rcases Nat.lt_or_ge caps.maxImageCount ((caps.minImageCount + 1) % 2 ^ 32) with h | h
    · rw [hlt hpos h]
    · rw [hge hpos h]; exact h
  · rintro (hz | h)
    · exact h0 hz
    · rcases Nat.eq_zero_or_pos caps.maxImageCount with hz | hpos
      · exact h0 hz
      · exact hge hpos h
  · intro hpos h
    exact ⟨hlt hpos h, by rw [hlt hpos h]; exact h⟩

/-- The amended C13 at (min=2, max=2) and at (min=2, max=0): the count is 2, the
maximum, in the first record and 3 in the second. -/
theorem requestedImageCount_bounds_witness :
    (requestedImageCount ⟨2, 2, ⟨800, 600⟩, ⟨1, 1⟩, ⟨4096, 4096⟩⟩ = 2 ∧
      requestedImageCount ⟨2, 2, ⟨800, 600⟩, ⟨1, 1⟩, ⟨4096, 4096⟩⟩ < (2 + 1) % 2 ^ 32) ∧
    requestedImageCount ⟨2, 0, ⟨800, 600⟩, ⟨1, 1⟩, ⟨4096, 4096⟩⟩ = (2 + 1) % 2 ^ 32 :=
  ⟨(requestedImageCount_bounds ⟨2, 2, ⟨800, 600⟩, ⟨1, 1⟩, ⟨4096, 4096⟩⟩).2.2.2.2.1
      (by decide) (by decide),
   (requestedImageCount_bounds ⟨2, 0, ⟨800, 600⟩, ⟨1, 1⟩, ⟨4096, 4096⟩⟩).2.2.2.1
      (Or.inl rfl)⟩

/-- C14 (the code, divergent from the claim): for every pair of resolved indices that
differ, the branch taken sets concurrent sharing, queueFamilyIndexCount = 2 and
pQueueFamilyIndices to the address of its own array, which holds the two indices,
graphics then presentation, while the block is executed; when vkCreateSwapchainKHR is
called the block has been left and the array no longer exists, so the family-index list
read through pQueueFamilyIndices is not defined. For every pair of equal indices the
create info has exclusive sharing, count 0 and nullptr, and no family index is read. -/
theorem imageSharing_family_indices_dangling (indices : QueueFamilyIndices) :
    (indices.graphicsFamily ≠ indices.presentationFamily →
      imageSharingInBlock indices
        = { imageSharingMode := VK_SHARING_MODE_CONCURRENT
            queueFamilyIndexCount := 2
            pQueueFamilyIndices := .blockArray
            queueFamilyIndices :=
              some [toUInt32 indices.graphicsFamily, toUInt32 indices.presentationFamily] } ∧
      (imageSharingInBlock indices).familyIndices
        = some [toUInt32 indices.graphicsFamily, toUInt32 indices.presentationFamily] ∧
      imageSharing indices
        = { imageSharingMode := VK_SHARING_MODE_CONCURRENT
            queueFamilyIndexCount := 2
            pQueueFamilyIndices := .blockArray
            queueFamilyIndices := none } ∧
      (imageSharing indices).familyIndices = none) ∧
    (indices.graphicsFamily = indices.presentationFamily →
      imageSharing indices
        = { imageSharingMode := VK_SHARING_MODE_EXCLUSIVE
            queueFamilyIndexCount := 0
            pQueueFamilyIndices := .null
            queueFamilyIndices := none } ∧
      (imageSharing indices).familyIndices = some []) := by
  constructor
  · intro h
    simp [imageSharing, imageSharingInBlock, ImageSharing.familyIndices, h]
  · intro h
    simp [imageSharing, imageSharingInBlock, ImageSharing.familyIndices, h]

/-- The code at the two examples of C14: for the indices (0, 1) the array holds [0, 1]
inside the block and the list read by vkCreateSwapchainKHR is not defined; for the
indices (0, 0) the sharing is exclusive with count 0, nullptr and nothing read. -/
theorem imageSharing_family_indices_dangling_witness :
    ((0 : Int) ≠ 1 ∧
      (imageSharingInBlock { graphicsFamily := 0, presentationFamily := 1 }).familyIndices
        = some [toUInt32 0, toUInt32 1] ∧
      imageSharing { graphicsFamily := 0, presentationFamily := 1 }
        = { imageSharingMode := VK_SHARING_MODE_CONCURRENT
            queueFamilyIndexCount := 2
            pQueueFamilyIndices := .blockArray
            queueFamilyIndices := none } ∧
      (imageSharing { graphicsFamily := 0, presentationFamily := 1 }).familyIndices = none) ∧
    (imageSharing { graphicsFamily := 0, presentationFamily := 0 }
        = { imageSharingMode := VK_SHARING_MODE_EXCLUSIVE
            queueFamilyIndexCount := 0
            pQueueFamilyIndices := .null
            queueFamilyIndices := none } ∧
      (imageSharing { graphicsFamily := 0, presentationFamily := 0 }).familyIndices
        = some []) :=
  ⟨⟨by decide,
    ((imageSharing_family_indices_dangling
        { graphicsFamily := 0, presentationFamily := 1 }).1 (by decide)).2⟩,
   (imageSharing_family_indices_dangling
      { graphicsFamily := 0, presentationFamily := 0 }).2 rfl⟩

/-- The create info of `createSwapchain` carries the image count and the sharing
decision derived from the device's capabilities and resolved queue families. -/
theorem swapchainCreateInfo_fields (device : PhysicalDevice) (window : Int × Int)
    (info : SwapchainCreateInfo) (h : swapchainCreateInfo device window = some info) :
    info.minImageCount = requestedImageCount device.surfaceCapabilities ∧
    info.sharing
      = imageSharing (getQueueFamilies device.queueFamilyList device.presentationSupport) := by
  simp only [swapchainCreateInfo] at h
  split at h
  · cases h
  · simp only [Option.some.injEq] at h
    subst h
    exact ⟨rfl, rfl⟩

/-! ## Render pass and pipeline: the claims -/

/-- C18: for every swapchain image format, the render pass create info built by
createRenderPass has exactly 2 subpass dependencies, whatever the format: entry 0 is
external -> subpass 0 with srcStage = BOTTOM_OF_PIPE, srcAccess = MEMORY_READ,
dstStage = COLOR_ATTACHMENT_OUTPUT, dstAccess = COLOR_ATTACHMENT_READ |
COLOR_ATTACHMENT_WRITE; entry 1 is its mirror, subpass 0 -> external with source and
destination stage and access masks exchanged. -/
theorem renderPassCreateInfo_dependencies (swapChainImageFormat : Nat) :
    (renderPassCreateInfo swapChainImageFormat).dependencyCount = 2 ∧
    (renderPassCreateInfo swapChainImageFormat).dependencies
      = [ { srcSubpass := VK_SUBPASS_EXTERNAL
            dstSubpass := 0
            srcStageMask := VK_PIPELINE_STAGE_BOTTOM_OF_PIPE_BIT
            srcAccessMask := VK_ACCESS_MEMORY_READ_BIT
            dstStageMask := VK_PIPELINE_STAGE_COLOR_ATTACHMENT_OUTPUT_BIT
            dstAccessMask :=
              VK_ACCESS_COLOR_ATTACHMENT_READ_BIT ||| VK_ACCESS_COLOR_ATTACHMENT_WRITE_BIT
            dependencyFlags := 0 },
          SubpassDependency.mirror
            { srcSubpass := VK_SUBPASS_EXTERNAL
              dstSubpass := 0
              srcStageMask := VK_PIPELINE_STAGE_BOTTOM_OF_PIPE_BIT
              srcAccessMask := VK_ACCESS_MEMORY_READ_BIT
              dstStageMask := VK_PIPELINE_STAGE_COLOR_ATTACHMENT_OUTPUT_BIT
              dstAccessMask :=
                VK_ACCESS_COLOR_ATTACHMENT_READ_BIT ||| VK_ACCESS_COLOR_ATTACHMENT_WRITE_BIT
              dependencyFlags := 0 } ] ∧
    (renderPassCreateInfo swapChainImageFormat).dependencies[1]?
      = some { srcSubpass := 0
               dstSubpass := VK_SUBPASS_EXTERNAL
               srcStageMask := VK_PIPELINE_STAGE_COLOR_ATTACHMENT_OUTPUT_BIT
               srcAccessMask :=
                 VK_ACCESS_COLOR_ATTACHMENT_READ_BIT ||| VK_ACCESS_COLOR_ATTACHMENT_WRITE_BIT
               dstStageMask := VK_PIPELINE_STAGE_BOTTOM_OF_PIPE_BIT
               dstAccessMask := VK_ACCESS_MEMORY_READ_BIT
               dependencyFlags := 0 } ∧
    (∀ otherFormat : Nat,
      (renderPassCreateInfo otherFormat).dependencies
        = (renderPassCreateInfo swapChainImageFormat).dependencies) := by
  refine ⟨rfl, rfl, rfl, fun _ => rfl⟩

/-- C16 (the code at the failing inputs): when both shader modules have been created
and vkCreatePipelineLayout, or vkCreateGraphicsPipelines, returns a non-success result,
createGraphicsPipeline throws with both modules created and neither destroyed. -/
theorem createGraphicsPipeline_error_keeps_shader_modules :
    createGraphicsPipeline
        { workingPlatform false 1 with createPipelineLayoutSuccess := false } {}
      = ({ calls := [.create .vertexShaderModule, .create .fragmentShaderModule] },
          .threw .pipelineLayoutCreationFailed) ∧
    createGraphicsPipeline
        { workingPlatform false 1 with createGraphicsPipelineSuccess := false } {}
      = ({ calls := [.create .vertexShaderModule, .create .fragmentShaderModule,
                     .create .pipelineLayout] },
          .threw .graphicsPipelineCreationFailed) ∧
    destroyedObjects (createGraphicsPipeline
        { workingPlatform false 1 with createPipelineLayoutSuccess := false } {}).1.calls = [] ∧
    destroyedObjects (createGraphicsPipeline
        { workingPlatform false 1 with createGraphicsPipelineSuccess := false } {}).1.calls = [] ∧
    destroyedObjects (createGraphicsPipeline (workingPlatform false 1) {}).1.calls
      = [.fragmentShaderModule, .vertexShaderModule] := by
  decide

/-! ## Device extension support: the claims -/

/-- C20 (as stated, refuted): with an empty required set and a device that reports no
extension, every required name is among the reported names, yet
checkDeviceExtensionSupport returns false. -/
theorem checkDeviceExtensionSupport_empty_fails :
    checkDeviceExtensionSupport [] bareDevice = false ∧
    (∀ r ∈ ([] : List String), ∃ e ∈ bareDevice.extensions, r = e) := by
  refine ⟨by decide, ?_⟩
  intro r hr
  cases hr

/-- C20 (amended): for every required device-extension set and every list of extensions
reported by a device, checkDeviceExtensionSupport returns true if and only if the
device reports at least one extension and every required extension name equals the
name of some reported extension; so, unless the required set and the reported list are
both empty, it returns true if and only if every required name equals some reported
name. -/
theorem checkDeviceExtensionSupport_iff (required : List String) (device : PhysicalDevice) :
    (checkDeviceExtensionSupport required device = true ↔
      device.extensions ≠ [] ∧ ∀ r ∈ required, ∃ e ∈ device.extensions, r = e) ∧
    ((required ≠ [] ∨ device.extensions ≠ []) →
      (checkDeviceExtensionSupport required device = true ↔
        ∀ r ∈ required, ∃ e ∈ device.extensions, r = e)) := by
  have hmem : (∀ r ∈ required, r ∈ device.extensions) ↔
      ∀ r ∈ required, ∃ e ∈ device.extensions, r = e := by
    constructor
    · intro h r hr
      exact ⟨r, h r hr, rfl⟩
    · intro h r hr
      obtain ⟨e, he, hre⟩ := h r hr
      rw [hre]
      exact he
  have hfull := checkDeviceExtensionSupport_eq_true required device
  rw [hmem] at hfull
  refine ⟨hfull, ?_⟩
  intro hne
  rw [hfull]
  constructor
  · exact fun h => h.2
  · intro h
    refine ⟨?_, h⟩
    rcases hne with hreq | hext
    · obtain ⟨r, rest, hr⟩ := List.exists_cons_of_ne_nil hreq
      obtain ⟨e, he, _⟩ := h r (by rw [hr]; exact List.mem_cons_self _ _)
      exact List.ne_nil_of_mem he
    · exact hext

/-- The amended C20 at the required set holding the swapchain extension and a device
that reports it among two extensions: the check returns true. -/
theorem checkDeviceExtensionSupport_iff_witness :
    checkDeviceExtensionSupport ["VK_KHR_swapchain"]
      { bareDevice with extensions := ["VK_KHR_maintenance1", "VK_KHR_swapchain"] } = true :=
  ((checkDeviceExtensionSupport_iff ["VK_KHR_swapchain"]
      { bareDevice with extensions := ["VK_KHR_maintenance1", "VK_KHR_swapchain"] }).2
    (Or.inl (by decide))).2
    (fun r hr => ⟨"VK_KHR_swapchain", by decide, by simpa using hr⟩)

/-! ## Queue family resolution: validity -/

theorem isValid_iff (indices : QueueFamilyIndices) :
    indices.isValid = true ↔ 0 ≤ indices.graphicsFamily ∧ 0 ≤ indices.presentationFamily := by
  simp [QueueFamilyIndices.isValid]

/-- The indices returned by `getQueueFamilies` are those assigned over a prefix of the
families, which is the whole list unless the indices returned are valid. -/
theorem getQueueFamilies_eq_assignFamilies (fams : List QueueFamilyProperties)
    (sup : Nat → Bool) :
    ∃ m, m ≤ fams.length ∧
      getQueueFamilies fams sup = assignFamilies sup (fams.take m) 0 {} ∧
      (m < fams.length → (getQueueFamilies fams sup).isValid = true) := by
  obtain ⟨m, hm, _, hscan, _, hstop⟩ := scanFamilies_prefix sup fams 0 {} []
  have hres : getQueueFamilies fams sup = assignFamilies sup (fams.take m) 0 {} := by
    unfold getQueueFamilies getQueueFamiliesTraced
    rw [hscan]
  exact ⟨m, hm, hres, fun h => by rw [hres]; exact hstop h⟩

theorem getElem?_of_take {α : Type} (l : List α) (m i : Nat) (a : α)
    (h : (l.take m)[i]? = some a) : l[i]? = some a := by
  have hi : i < m := by
    by_contra hge
    rw [List.getElem?_eq_none (by simp; omega)] at h
    cases h
  rw [← List.getElem?_take_of_lt hi]
  exact h

/-- C19: for every queue-family list and presentation-support answers, getQueueFamilies
returns valid indices (both set) if and only if the list contains some family with at
least one queue and the graphics bit and some (possibly the same) family with at least
one queue and presentation support; an index for which no family matches is returned
unset (-1), and every index that is set is the position of a family of the list that
has at least one queue and the corresponding capability. -/
theorem getQueueFamilies_valid_iff (fams : List QueueFamilyProperties) (sup : Nat → Bool) :
    ((getQueueFamilies fams sup).isValid = true ↔
      (∃ (i : Nat) (qf : QueueFamilyProperties), fams[i]? = some qf ∧ graphicsMatch qf = true) ∧
      (∃ (j : Nat) (qf : QueueFamilyProperties),
        fams[j]? = some qf ∧ presentationMatch sup j qf = true)) ∧
    ((¬∃ (i : Nat) (qf : QueueFamilyProperties),
        fams[i]? = some qf ∧ graphicsMatch qf = true) →
      (getQueueFamilies fams sup).graphicsFamily = -1) ∧
    ((¬∃ (j : Nat) (qf : QueueFamilyProperties),
        fams[j]? = some qf ∧ presentationMatch sup j qf = true) →
      (getQueueFamilies fams sup).presentationFamily = -1) ∧
    (0 ≤ (getQueueFamilies fams sup).graphicsFamily →
      ∃ (i : Nat) (qf : QueueFamilyProperties), fams[i]? = some qf ∧
        graphicsMatch qf = true ∧ (getQueueFamilies fams sup).graphicsFamily = (i : Int)) ∧
    (0 ≤ (getQueueFamilies fams sup).presentationFamily →
      ∃ (j : Nat) (qf : QueueFamilyProperties), fams[j]? = some qf ∧
        presentationMatch sup j qf = true ∧
        (getQueueFamilies fams sup).presentationFamily = (j : Int)) := by
  obtain ⟨m, hm, hres, hstop⟩ := getQueueFamilies_eq_assignFamilies fams sup
  obtain ⟨_, _, g3, g4⟩ := assignFamilies_graphicsFamily sup (fams.take m) 0 {} (by decide)
  obtain ⟨_, _, p3, p4⟩ := assignFamilies_presentationFamily sup (fams.take m) 0 {} (by decide)
  rw [← hres] at g3 g4 p3 p4
  simp only [Nat.zero_add] at g3 g4 p3 p4
  have hgset : 0 ≤ (getQueueFamilies fams sup).graphicsFamily →
      ∃ (i : Nat) (qf : QueueFamilyProperties), fams[i]? = some qf ∧
        graphicsMatch qf = true ∧ (getQueueFamilies fams sup).graphicsFamily = (i : Int) := by
    intro h0
    rcases g4 with h | ⟨j, qf, hq, hmatch, he⟩
    · rw [h] at h0
      exact absurd h0 (by decide)
    · exact ⟨j, qf, getElem?_of_take fams m j qf hq, hmatch, he⟩
  have hpset : 0 ≤ (getQueueFamilies fams sup).presentationFamily →
      ∃ (j : Nat) (qf : QueueFamilyProperties), fams[j]? = some qf ∧
        presentationMatch sup j qf = true ∧
        (getQueueFamilies fams sup).presentationFamily = (j : Int) := by
    intro h0
    rcases p4 with h | ⟨j, qf, hq, hmatch, he⟩
    · rw [h] at h0
      exact absurd h0 (by decide)
    · exact ⟨j, qf, getElem?_of_take fams m j qf hq, hmatch, he⟩
  refine ⟨⟨?_, ?_⟩, ?_, ?_, hgset, hpset⟩
  · intro hv
    rw [isValid_iff] at hv
    obtain ⟨i, qf, hq, hmatch, _⟩ := hgset hv.1
    obtain ⟨j, qf', hq', hmatch', _⟩ := hpset hv.2
    exact ⟨⟨i, qf, hq, hmatch⟩, ⟨j, qf', hq', hmatch'⟩⟩
  · rintro ⟨⟨i, qf, hq, hmatch⟩, ⟨j, qf', hq', hmatch'⟩⟩
    rcases Nat.lt_or_ge m fams.length with hlt | hge
    · exact hstop hlt
    · have hall : fams.take m = fams := List.take_of_length_le hge
      rw [hall] at g3 p3
      rw [isValid_iff]
      have hg := g3 i qf hq hmatch
      have hp := p3 j qf' hq' hmatch'
      constructor <;> omega
  · intro hnone
    rcases g4 with h | ⟨j, qf, hq, hmatch, _⟩
    · exact h
    · exact absurd ⟨j, qf, getElem?_of_take fams m j qf hq, hmatch⟩ hnone
  · intro hnone
    rcases p4 with h | ⟨j, qf, hq, hmatch, _⟩
    · exact h
    · exact absurd ⟨j, qf, getElem?_of_take fams m j qf hq, hmatch⟩ hnone

/-- C19 at a list whose family 0 has no queue, family 1 is graphics-only and family 2
presentation-only: the indices returned are valid; and at a list with no
presentation-capable family the presentation index is unset. -/
theorem getQueueFamilies_valid_iff_witness :
    (getQueueFamilies [⟨1, 0⟩, ⟨1, 2⟩, ⟨4, 1⟩] (fun i => i == 2)).isValid = true ∧
    (getQueueFamilies [⟨1, 1⟩, ⟨1, 2⟩] (fun _ => false)).presentationFamily = -1 :=
  ⟨(getQueueFamilies_valid_iff [⟨1, 0⟩, ⟨1, 2⟩, ⟨4, 1⟩] (fun i => i == 2)).1.2
      ⟨⟨1, ⟨1, 2⟩, by decide, by decide⟩, ⟨2, ⟨4, 1⟩, by decide, by decide⟩⟩,
   (getQueueFamilies_valid_iff [⟨1, 1⟩, ⟨1, 2⟩] (fun _ => false)).2.2.1
      (by
        rintro ⟨j, qf, _, hmatch⟩
        simp [presentationMatch] at hmatch)⟩

/-! ## Initialization and teardown: the steps -/

theorem Renderer.append_empty (r : Renderer) : r.append {} = r := by
  cases r
  simp [Renderer.append]

/-- The image view loop creates a view for each image up to the first failing creation,
stores them in order, and throws exactly when some creation fails. -/
theorem createImageViews_eq (p : Platform) :
    ∀ (images : List Nat) (r : Renderer),
      createImageViews p images r
        = ({ calls := r.calls ++
              (images.takeWhile p.createImageViewSuccess).map
                (fun image => Event.create (.imageView image))
             swapchainImages := r.swapchainImages ++ images.takeWhile p.createImageViewSuccess },
           if images.all p.createImageViewSuccess then .returned
           else .threw .imageViewCreationFailed) := by
  intro images
  induction images with
  | nil =>
    intro r
    cases r
    simp [createImageViews]
  | cons image rest ih =>
    intro r
    by_cases h : p.createImageViewSuccess image = true
    · simp [createImageViews, h, ih, List.takeWhile]
    · have h' : p.createImageViewSuccess image = false := by simpa using h
      cases r
      simp [createImageViews, h', List.takeWhile]

/-- The function `createSwapchain` by the definedness of its reads. -/
theorem createSwapchain_eq (p : Platform) (physicalDevice : Option PhysicalDevice)
    (r : Renderer) :
    createSwapchain p physicalDevice r
      = if swapchainCallDefined physicalDevice p.framebufferSize then
          (if !p.createSwapchainSuccess then (r, .threw .swapchainCreationFailed)
           else
            createImageViews p (List.range p.swapchainImageCount)
              (r.emit (.create .swapchain)))
        else (r, .undefined) := by
  cases physicalDevice with
  | none => simp [createSwapchain, swapchainCallDefined]
  | some device =>
    cases hinfo : swapchainCreateInfo device p.framebufferSize with
    | none => simp [createSwapchain, swapchainCallDefined, hinfo]
    | some info =>
      cases hfam : info.sharing.familyIndices with
      | none => simp [createSwapchain, swapchainCallDefined, hinfo, hfam]
      | some l => simp [createSwapchain, swapchainCallDefined, hinfo, hfam]

/-- The function `createLogicalDevice` by whether the device handle is set. -/
theorem createLogicalDevice_eq (p : Platform) (physicalDevice : Option PhysicalDevice)
    (r : Renderer) :
    createLogicalDevice p physicalDevice r
      = if physicalDevice.isSome then
          (if !p.createDeviceSuccess then (r, .threw .deviceCreationFailed)
           else (r.emit (.create .logicalDevice), .returned))
        else (r, .undefined) := by
  cases physicalDevice <;> simp [createLogicalDevice]

/-- A step continues the renderer it is given by what it does from the empty renderer,
and ends the same way whatever the renderer it is given. -/
theorem runStep_frame (p : Platform) (s : InitStep) (r : Renderer) :
    runStep p s r = (r.append (runStep p s {}).1, (runStep p s {}).2) := by
  cases r with
  | mk calls images =>
    cases s
    · simp only [runStep, createInstance]
      split_ifs <;> simp [Renderer.append, Renderer.emit]
    · simp only [runStep, createDebugMessenger]
      split_ifs <;> simp [Renderer.append, Renderer.emit]
    · simp only [runStep, createSurface]
      split_ifs <;> simp [Renderer.append, Renderer.emit]
    · simp only [runStep, selectPhysicalDevice]
      split <;> simp [Renderer.append]
    · simp only [runStep, createLogicalDevice_eq]
      split_ifs <;> simp [Renderer.append, Renderer.emit]
    · simp only [runStep, createSwapchain_eq]
      split_ifs <;> simp [Renderer.append, Renderer.emit, createImageViews_eq]
    · simp only [runStep, createRenderPass]
      split_ifs <;> simp [Renderer.append, Renderer.emit]
    · simp only [runStep, createGraphicsPipeline]
      split_ifs <;> simp [Renderer.append, Renderer.emit]

theorem stepSucceeds_iff (p : Platform) (s : InitStep) :
    stepSucceeds p s = true ↔ (runStep p s {}).2 = .returned := by
  simp [stepSucceeds, stepCompletion]

/-- The `try` block runs the steps up to and including the first that does not return,
issuing their events and nothing else, and ends as that step does. -/
theorem runSteps_eq (p : Platform) :
    ∀ (steps : List InitStep) (r : Renderer),
      (runSteps p steps r).1.calls = r.calls ++ tracedSteps p (stepsUntilStop p steps) ∧
      (runSteps p steps r).1.swapchainImages
        = r.swapchainImages ++ storedImages p (stepsUntilStop p steps) ∧
      (runSteps p steps r).2 = stepsCompletion p steps := by
  intro steps
  induction steps with
  | nil =>
    intro r
    simp [runSteps, stepsUntilStop, tracedSteps, storedImages, stepsCompletion]
  | cons s rest ih =>
    intro r
    have hframe := runStep_frame p s (r.emit (.step s))
    cases he : (runStep p s {}).2 with
    | returned =>
      have hs : stepSucceeds p s = true := (stepSucceeds_iff p s).mpr he
      rw [he] at hframe
      obtain ⟨ih1, ih2, ih3⟩ := ih ((r.emit (.step s)).append (runStep p s {}).1)
      simp only [runSteps, hframe, stepsUntilStop, hs, if_true, tracedSteps, storedImages,
        stepsCompletion, ih1, ih2, ih3, and_true]
      simp [Renderer.append, Renderer.emit, stepCalls]
    | threw e =>
      have hs : stepSucceeds p s = false := by
        simp [stepSucceeds, stepCompletion, he]
      rw [he] at hframe
      simp only [runSteps, hframe, stepsUntilStop, hs, Bool.false_eq_true, if_false,
        tracedSteps, storedImages, stepsCompletion, stepCompletion, he, and_true,
        List.append_nil]
      simp [Renderer.append, Renderer.emit, stepCalls]
    | undefined =>
      have hs : stepSucceeds p s = false := by
        simp [stepSucceeds, stepCompletion, he]
      rw [he] at hframe
      simp only [runSteps, hframe, stepsUntilStop, hs, Bool.false_eq_true, if_false,
        tracedSteps, storedImages, stepsCompletion, stepCompletion, he, and_true,
        List.append_nil]
      simp [Renderer.append, Renderer.emit, stepCalls]

theorem destroyedObjects_append (a b : List Event) :
    destroyedObjects (a ++ b) = destroyedObjects a ++ destroyedObjects b := by
  simp [destroyedObjects, List.filterMap_append]

theorem createdObjects_append (a b : List Event) :
    createdObjects (a ++ b) = createdObjects a ++ createdObjects b := by
  simp [createdObjects, List.filterMap_append]

theorem destroyedObjects_map_create (l : List VkObject) :
    destroyedObjects (l.map Event.create) = [] := by
  induction l with
  | nil => rfl
  | cons o rest ih => simp [destroyedObjects]

theorem createdObjects_map_create (l : List VkObject) :
    createdObjects (l.map Event.create) = l := by
  induction l with
  | nil => rfl
  | cons o rest ih => simpa [createdObjects] using ih

theorem steps_of_all_succeed (p : Platform) (steps : List InitStep)
    (h : ∀ t ∈ steps, stepSucceeds p t = true) :
    stepsUntilStop p steps = steps ∧ stepsCompletion p steps = .returned := by
  induction steps with
  | nil => exact ⟨rfl, rfl⟩
  | cons s rest ih =>
    have hs : stepSucceeds p s = true := h s (List.mem_cons_self _ _)
    obtain ⟨ih1, ih2⟩ := ih (fun t ht => h t (List.mem_cons_of_mem _ ht))
    simp only [stepsUntilStop, stepsCompletion, hs, if_true, ih1, ih2, and_self]

theorem steps_of_first_stop (p : Platform) (pre : List InitStep) (s : InitStep)
    (post : List InitStep) (hpre : ∀ t ∈ pre, stepSucceeds p t = true)
    (hs : stepSucceeds p s = false) :
    stepsUntilStop p (pre ++ s :: post) = pre ++ [s] ∧
    stepsCompletion p (pre ++ s :: post) = stepCompletion p s := by
  induction pre with
  | nil => simp [stepsUntilStop, stepsCompletion, hs]
  | cons t rest ih =>
    have ht : stepSucceeds p t = true := hpre t (List.mem_cons_self _ _)
    obtain ⟨ih1, ih2⟩ := ih (fun u hu => hpre u (List.mem_cons_of_mem _ hu))
    have hcons1 : stepsUntilStop p (t :: rest ++ s :: post)
        = t :: stepsUntilStop p (rest ++ s :: post) := by
      simp [stepsUntilStop, ht]
    have hcons2 : stepsCompletion p (t :: rest ++ s :: post)
        = stepsCompletion p (rest ++ s :: post) := by
      simp [stepsCompletion, ht]
    rw [hcons1, hcons2, ih1, ih2]
    exact ⟨rfl, rfl⟩

/-- A sequence of steps has every step succeeding, or splits at its first step that does
not. -/
theorem steps_split (p : Platform) (steps : List InitStep) :
    (∀ t ∈ steps, stepSucceeds p t = true) ∨
    ∃ pre s post, steps = pre ++ s :: post ∧ (∀ t ∈ pre, stepSucceeds p t = true) ∧
      stepSucceeds p s = false := by
  induction steps with
  | nil => exact Or.inl (fun t ht => (by cases ht))
  | cons s rest ih =>
    by_cases hs : stepSucceeds p s = true
    · rcases ih with hall | ⟨pre, t, post, hsplit, hpre, ht⟩
      · left
        intro u hu
        rcases List.mem_cons.mp hu with h | h
        · rw [h]; exact hs
        · exact hall u h
      · right
        refine ⟨s :: pre, t, post, by rw [hsplit]; rfl, ?_, ht⟩
        intro u hu
        rcases List.mem_cons.mp hu with h | h
        · rw [h]; exact hs
        · exact hpre u h
    · right
      exact ⟨[], s, rest, rfl, fun t ht => (by cases ht), by simpa using hs⟩

/-- The events, the stored images and the value returned by `init`, from the steps
run. -/
theorem init_eq (p : Platform) :
    (init p).2.calls = tracedSteps p (stepsUntilStop p initSteps) ∧
    (init p).2.swapchainImages = storedImages p (stepsUntilStop p initSteps) ∧
    (init p).1 = match stepsCompletion p initSteps with
      | .returned => some EXIT_SUCCESS
      | .threw _ => some EXIT_FAILURE
      | .undefined => none := by
  obtain ⟨h1, h2, h3⟩ := runSteps_eq p initSteps {}
  simp only [init]
  cases hr : runSteps p initSteps {} with
  | mk r c =>
    rw [hr] at h1 h2 h3
    simp only at h3
    rw [← h3]
    cases c <;> exact ⟨by simpa using h1, by simpa using h2, rfl⟩

/-- Init returns `EXIT_SUCCESS` exactly when each of its steps succeeds. -/
theorem init_success_iff (p : Platform) :
    (init p).1 = some EXIT_SUCCESS ↔ ∀ s ∈ initSteps, stepSucceeds p s = true := by
  rw [(init_eq p).2.2]
  constructor
  · intro h
    rcases steps_split p initSteps with hall | ⟨pre, s, post, hsplit, hpre, hs⟩
    · exact hall
    · have hc := (steps_of_first_stop p pre s post hpre hs).2
      rw [← hsplit] at hc
      rw [hc] at h
      have hne : stepCompletion p s ≠ .returned := by
        simpa [stepSucceeds] using hs
      cases hcs : stepCompletion p s with
      | returned => exact absurd hcs hne
      | threw e =>
        rw [hcs] at h
        simp [EXIT_SUCCESS, EXIT_FAILURE] at h
      | undefined =>
        rw [hcs] at h
        simp at h
  · intro hall
    rw [(steps_of_all_succeed p initSteps hall).2]

/-- What each step does on its own when it succeeds. -/
theorem runStep_of_success (p : Platform) :
    (stepSucceeds p .createInstance = true →
      (runStep p .createInstance {}).1 = { calls := [.create .vulkanInstance] }) ∧
    (stepSucceeds p .createDebugMessenger = true →
      (runStep p .createDebugMessenger {}).1
        = { calls := if p.validationEnabled then [.create .debugMessenger] else [] }) ∧
    (stepSucceeds p .createSurface = true →
      (runStep p .createSurface {}).1 = { calls := [.create .surface] }) ∧
    (runStep p .getPhysicalDevice {}).1 = {} ∧
    (stepSucceeds p .createLogicalDevice = true →
      (runStep p .createLogicalDevice {}).1 = { calls := [.create .logicalDevice] }) ∧
    (stepSucceeds p .createSwapchain = true →
      (runStep p .createSwapchain {}).1
        = { calls := Event.create .swapchain ::
              (List.range p.swapchainImageCount).map (fun i => Event.create (.imageView i))
            swapchainImages := List.range p.swapchainImageCount }) ∧
    (stepSucceeds p .createRenderPass = true →
      (runStep p .createRenderPass {}).1 = { calls := [.create .renderPass] }) ∧
    (stepSucceeds p .createGraphicsPipeline = true →
      (runStep p .createGraphicsPipeline {}).1
        = { calls := [.create .vertexShaderModule, .create .fragmentShaderModule,
                      .create .pipelineLayout, .create .graphicsPipeline,
                      .destroy .fragmentShaderModule, .destroy .vertexShaderModule] }) := by
  refine ⟨?_, ?_, ?_, ?_, ?_, ?_, ?_, ?_⟩
  · simp only [stepSucceeds, stepCompletion, runStep, createInstance]
    split_ifs <;> simp [Renderer.emit]
  · simp only [stepSucceeds, stepCompletion, runStep, createDebugMessenger]
    split_ifs <;> simp_all [Renderer.emit]
  · simp only [stepSucceeds, stepCompletion, runStep, createSurface]
    split_ifs <;> simp [Renderer.emit]
  · simp only [runStep, selectPhysicalDevice]
    split <;> rfl
  · simp only [stepSucceeds, stepCompletion, runStep, createLogicalDevice_eq]
    split_ifs <;> simp [Renderer.emit]
  · simp only [stepSucceeds, stepCompletion, runStep, createSwapchain_eq,
      createImageViews_eq]
    split_ifs with h1 h2 h3
    · simp
    · intro _
      have htake : (List.range p.swapchainImageCount).takeWhile p.createImageViewSuccess
          = List.range p.swapchainImageCount := by
        rw [List.takeWhile_eq_self_iff]
        intro x hx
        exact List.all_eq_true.mp h3 x hx
      simp [Renderer.emit, htake]
    · simp
    · simp
  · simp only [stepSucceeds, stepCompletion, runStep, createRenderPass]
    split_ifs <;> simp [Renderer.emit]
  · simp only [stepSucceeds, stepCompletion, runStep, createGraphicsPipeline]
    split_ifs <;> simp [Renderer.emit]

/-- The events and the stored images of an initialization in which every step succeeded. -/
theorem init_of_success (p : Platform) (h : (init p).1 = some EXIT_SUCCESS) :
    (init p).2.calls
      = [Event.step .createInstance, .create .vulkanInstance, .step .createDebugMessenger]
        ++ (if p.validationEnabled then [Event.create .debugMessenger] else [])
        ++ [Event.step .createSurface, .create .surface, .step .getPhysicalDevice,
            .step .createLogicalDevice, .create .logicalDevice, .step .createSwapchain,
            .create .swapchain]
        ++ ((List.range p.swapchainImageCount).map VkObject.imageView).map Event.create
        ++ [Event.step .createRenderPass, .create .renderPass, .step .createGraphicsPipeline,
            .create .vertexShaderModule, .create .fragmentShaderModule,
            .create .pipelineLayout, .create .graphicsPipeline,
            .destroy .fragmentShaderModule, .destroy .vertexShaderModule] ∧
    (init p).2.swapchainImages = List.range p.swapchainImageCount := by
  have hall := (init_success_iff p).mp h
  have huntil := (steps_of_all_succeed p initSteps hall).1
  obtain ⟨h1, h2, h3, h4, h5, h6, h7, h8⟩ := runStep_of_success p
  have e1 := h1 (hall _ (by decide))
  have e2 := h2 (hall _ (by decide))
  have e3 := h3 (hall _ (by decide))
  have e5 := h5 (hall _ (by decide))
  have e6 := h6 (hall _ (by decide))
  have e7 := h7 (hall _ (by decide))
  have e8 := h8 (hall _ (by decide))
  constructor
  · rw [(init_eq p).1, huntil]
    simp only [initSteps, tracedSteps, stepCalls, e1, e2, e3, h4, e5, e6, e7, e8]
    cases p.validationEnabled <;> simp
  · rw [(init_eq p).2.1, huntil]
    simp only [initSteps, storedImages, e1, e2, e3, h4, e5, e6, e7, e8]
    simp

/-- The destroy calls of an initialization in which every step succeeded: the two
transient shader modules, fragment then vertex. -/
theorem destroyedObjects_of_success (p : Platform) (h : (init p).1 = some EXIT_SUCCESS) :
    destroyedObjects (init p).2.calls = [.fragmentShaderModule, .vertexShaderModule] := by
  rw [(init_of_success p h).1]
  simp only [destroyedObjects_append, destroyedObjects_map_create]
  cases p.validationEnabled <;> simp [destroyedObjects]

/-! ## Initialization: the claims -/

/-- Two executions of init whose behaviour is not defined. With one enumerated device
that is not suitable, getPhysicalDevice returns with the device handle unset and
createLogicalDevice, the fifth step, runs on it. With a suitable device whose graphics
family is 0 and presentation family is 1, createSwapchain, the sixth step, hands
vkCreateSwapchainKHR a pointer to an array that no longer exists. -/
theorem init_undefined_examples :
    ((init { workingPlatform true 2 with deviceList := [bareDevice] }).1 = none ∧
      stepsEntered (init { workingPlatform true 2 with deviceList := [bareDevice] }).2.calls
        = [.createInstance, .createDebugMessenger, .createSurface, .getPhysicalDevice,
           .createLogicalDevice]) ∧
    ((init { workingPlatform true 2 with
              deviceList :=
                [{ bareDevice with
                    queueFamilyList := [⟨1, 1⟩, ⟨0, 1⟩]
                    presentationSupport := fun i => i == 1
                    extensions := ["VK_KHR_swapchain"] }] }).1 = none ∧
      stepsEntered (init { workingPlatform true 2 with
              deviceList :=
                [{ bareDevice with
                    queueFamilyList := [⟨1, 1⟩, ⟨0, 1⟩]
                    presentationSupport := fun i => i == 1
                    extensions := ["VK_KHR_swapchain"] }] }).2.calls
        = [.createInstance, .createDebugMessenger, .createSurface, .getPhysicalDevice,
           .createLogicalDevice, .createSwapchain]) := by
  decide

/-! ## Teardown: the claims -/

theorem filter_map_imageView (l : List Nat) :
    (l.map VkObject.imageView).filter
        (fun o => !([VkObject.fragmentShaderModule, VkObject.vertexShaderModule]).contains o)
      = l.map VkObject.imageView := by
  rw [List.filter_eq_self]
  intro o ho
  obtain ⟨i, _, hi⟩ := List.mem_map.mp ho
  subst hi
  simp

/-- After an initialization in which every step succeeded, the objects that remain are
those of `creationOrder`, in that order. -/
theorem remainingObjects_of_success (p : Platform) (h : (init p).1 = some EXIT_SUCCESS) :
    remainingObjects (init p).2.calls
      = creationOrder p.validationEnabled p.swapchainImageCount := by
  have hcalls := (init_of_success p h).1
  have hd := destroyedObjects_of_success p h
  have hc : createdObjects (init p).2.calls
      = [.vulkanInstance] ++ (if p.validationEnabled then [.debugMessenger] else [])
        ++ [.surface, .logicalDevice, .swapchain]
        ++ (List.range p.swapchainImageCount).map VkObject.imageView
        ++ [.renderPass, .vertexShaderModule, .fragmentShaderModule, .pipelineLayout,
            .graphicsPipeline] := by
    rw [hcalls]
    simp only [createdObjects_append, createdObjects_map_create]
    cases p.validationEnabled <;> simp [createdObjects]
  simp only [remainingObjects, hd, hc, creationOrder, List.filter_append,
    filter_map_imageView]
  cases p.validationEnabled <;> simp [List.filter]

theorem destroyedObjects_map_destroy (l : List VkObject) :
    destroyedObjects (l.map Event.destroy) = l := by
  induction l with
  | nil => rfl
  | cons o rest ih => simpa [destroyedObjects] using ih

/-- The destroy calls of `cleanup` after an initialization in which every step
succeeded are those of `teardownOrder`, in that order. -/
theorem cleanup_of_success (p : Platform) (h : (init p).1 = some EXIT_SUCCESS) :
    cleanup p.validationEnabled (init p).2
      = (teardownOrder p.validationEnabled p.swapchainImageCount).map Event.destroy := by
  simp only [cleanup, (init_of_success p h).2, teardownOrder]
  cases p.validationEnabled <;> simp

theorem teardownOrder_perm (validationEnabled : Bool) (n : Nat) :
    (teardownOrder validationEnabled n).Perm (creationOrder validationEnabled n) := by
  rw [List.perm_iff_count]
  intro a
  simp only [teardownOrder, creationOrder, List.count_append, List.count_cons, List.count_nil]
  omega

theorem teardownOrder_nodup (validationEnabled : Bool) (n : Nat) :
    (teardownOrder validationEnabled n).Nodup := by
  have hinj : Function.Injective VkObject.imageView := by
    intro a b hab
    cases hab
    rfl
  have hviews : ((List.range n).map VkObject.imageView).Nodup :=
    (List.nodup_range n).map hinj
  simp only [teardownOrder]
  cases validationEnabled <;>
    simp [List.nodup_append, List.nodup_cons, hviews, List.mem_map]

/-- C15 (as stated, refuted): after an initialization in which every step succeeded,
without validation and with one swapchain image, the surface was created before the
logical device and cleanup destroys the surface before the logical device: its destroy
sequence is not the reverse of the creation sequence. -/
theorem cleanup_not_reverse_creation :
    (init (workingPlatform false 1)).1 = some EXIT_SUCCESS ∧
    remainingObjects (init (workingPlatform false 1)).2.calls
      = [.vulkanInstance, .surface, .logicalDevice, .swapchain, .imageView 0, .renderPass,
         .pipelineLayout, .graphicsPipeline] ∧
    destroyedObjects (cleanup false (init (workingPlatform false 1)).2)
      = [.graphicsPipeline, .pipelineLayout, .renderPass, .imageView 0, .swapchain, .surface,
         .logicalDevice, .vulkanInstance] ∧
    destroyedObjects (cleanup false (init (workingPlatform false 1)).2)
      ≠ (remainingObjects (init (workingPlatform false 1)).2.calls).reverse := by
  decide

/-- C15 (amended): after an initialization in which every step succeeded, the objects
left are, in creation order, instance, debug messenger (when enabled), surface, logical
device, swapchain, image views, render pass, pipeline layout, pipeline; cleanup() issues
destroy calls only, in the order pipeline, pipeline layout, render pass, image views (in
the order they were created), swapchain, surface, logical device, debug messenger (when
enabled), instance. That is the reverse of the creation order except that the surface is
destroyed before the logical device and the image views are destroyed among themselves
in creation order; each object left is destroyed exactly once. -/
theorem cleanup_teardown_order (p : Platform) (h : (init p).1 = some EXIT_SUCCESS) :
    remainingObjects (init p).2.calls
      = [.vulkanInstance] ++ (if p.validationEnabled then [.debugMessenger] else [])
        ++ [.surface, .logicalDevice, .swapchain]
        ++ (List.range p.swapchainImageCount).map VkObject.imageView
        ++ [.renderPass, .pipelineLayout, .graphicsPipeline] ∧
    cleanup p.validationEnabled (init p).2
      = (destroyedObjects (cleanup p.validationEnabled (init p).2)).map Event.destroy ∧
    destroyedObjects (cleanup p.validationEnabled (init p).2)
      = [.graphicsPipeline, .pipelineLayout, .renderPass]
        ++ (List.range p.swapchainImageCount).map VkObject.imageView
        ++ [.swapchain, .surface, .logicalDevice]
        ++ (if p.validationEnabled then [.debugMessenger] else [])
        ++ [.vulkanInstance] ∧
    (remainingObjects (init p).2.calls).reverse
      = [.graphicsPipeline, .pipelineLayout, .renderPass]
        ++ ((List.range p.swapchainImageCount).map VkObject.imageView).reverse
        ++ [.swapchain, .logicalDevice, .surface]
        ++ (if p.validationEnabled then [.debugMessenger] else [])
        ++ [.vulkanInstance] ∧
    (destroyedObjects (cleanup p.validationEnabled (init p).2)).Perm
      (remainingObjects (init p).2.calls) ∧
    (destroyedObjects (cleanup p.validationEnabled (init p).2)).Nodup := by
  have hrem := remainingObjects_of_success p h
  have hclean := cleanup_of_success p h
  have hdes : destroyedObjects (cleanup p.validationEnabled (init p).2)
      = teardownOrder p.validationEnabled p.swapchainImageCount := by
    rw [hclean, destroyedObjects_map_destroy]
  refine ⟨by rw [hrem]; rfl, by rw [hdes, hclean], by rw [hdes]; rfl, ?_, ?_, ?_⟩
  · rw [hrem]
    simp only [creationOrder]
    cases p.validationEnabled <;> simp
  · rw [hdes, hrem]
    exact teardownOrder_perm _ _
  · rw [hdes]
    exact teardownOrder_nodup _ _

/-- The amended C15 on a platform with validation enabled and two swapchain images, on
which every step succeeds: cleanup destroys each of the ten objects left once. -/
theorem cleanup_teardown_order_witness :
    (destroyedObjects (cleanup true (init (workingPlatform true 2)).2)).Perm
        (remainingObjects (init (workingPlatform true 2)).2.calls) ∧
    (destroyedObjects (cleanup true (init (workingPlatform true 2)).2)).Nodup :=
  (cleanup_teardown_order (workingPlatform true 2) (by decide)).2.2.2.2


/-! ## Queue family resolution: the index kept -/

theorem lt_of_getElem?_take {α : Type} (l : List α) (m i : Nat) (a : α)
    (h : (l.take m)[i]? = some a) : i < m := by
  by_contra hge
  rw [List.getElem?_eq_none (by simp; omega)] at h
  cases h

/-- When the families queried are `0 .. k`, the indices returned are those held after
family `k`; `k` is a family of the list, no earlier family left both indices assigned,
and `k` is the last family unless it left both assigned. -/
theorem getQueueFamilies_of_last_queried (fams : List QueueFamilyProperties) (sup : Nat → Bool)
    (k : Nat) (hk : (getQueueFamiliesTraced fams sup).2 = List.range (k + 1)) :
    k < fams.length ∧ getQueueFamilies fams sup = indicesAfter sup fams k ∧
    (∀ j, j < k → (indicesAfter sup fams j).isValid = false) ∧
    (k + 1 < fams.length → (indicesAfter sup fams k).isValid = true) := by
  obtain ⟨m, hm, _, hscan, hbefore, hstop⟩ := scanFamilies_prefix sup fams 0 {} []
  have hlog : (getQueueFamiliesTraced fams sup).2 = List.range m := by
    unfold getQueueFamiliesTraced
    rw [hscan, List.range_eq_range']
    simp
  have hmk : m = k + 1 := by
    have := congrArg List.length (hlog.symm.trans hk)
    simpa using this
  subst hmk
  refine ⟨by omega, ?_, ?_, ?_⟩
  · unfold getQueueFamilies getQueueFamiliesTraced indicesAfter
    rw [hscan]
  · intro j hj
    exact hbefore j (by omega)
  · intro hlt
    exact hstop hlt

/-- C21: for every queue-family list, with `k` the index at which the scan stopped (the
last family queried), `k` is the first index at which both indices are assigned, or the
last index of the list if that never happens; the graphics index returned by
getQueueFamilies, when set, is the largest index i <= k of a family with at least one
queue and the graphics bit, and the presentation index, when set, is the largest index
i <= k of a family with at least one queue and presentation support. In particular an
earlier matching family does not keep the index when a later matching family is scanned
before the stop. -/
theorem getQueueFamilies_largest_scanned (fams : List QueueFamilyProperties)
    (sup : Nat → Bool) (k : Nat)
    (hk : (getQueueFamiliesTraced fams sup).2 = List.range (k + 1)) :
    k < fams.length ∧
    (((indicesAfter sup fams k).isValid = true ∧
        ∀ j, j < k → (indicesAfter sup fams j).isValid = false) ∨
      (k + 1 = fams.length ∧
        ∀ j, j < fams.length → (indicesAfter sup fams j).isValid = false)) ∧
    (0 ≤ (getQueueFamilies fams sup).graphicsFamily →
      ∃ (i : Nat) (qf : QueueFamilyProperties), i ≤ k ∧ fams[i]? = some qf ∧
        graphicsMatch qf = true ∧ (getQueueFamilies fams sup).graphicsFamily = (i : Int) ∧
        ∀ (i' : Nat) (qf' : QueueFamilyProperties), i' ≤ k → fams[i']? = some qf' →
          graphicsMatch qf' = true → i' ≤ i) ∧
    (0 ≤ (getQueueFamilies fams sup).presentationFamily →
      ∃ (i : Nat) (qf : QueueFamilyProperties), i ≤ k ∧ fams[i]? = some qf ∧
        presentationMatch sup i qf = true ∧
        (getQueueFamilies fams sup).presentationFamily = (i : Int) ∧
        ∀ (i' : Nat) (qf' : QueueFamilyProperties), i' ≤ k → fams[i']? = some qf' →
          presentationMatch sup i' qf' = true → i' ≤ i) ∧
    (∀ (i i' : Nat) (qf' : QueueFamilyProperties), i < i' → i' ≤ k → fams[i']? = some qf' →
      graphicsMatch qf' = true → (getQueueFamilies fams sup).graphicsFamily ≠ (i : Int)) ∧
    (∀ (i i' : Nat) (qf' : QueueFamilyProperties), i < i' → i' ≤ k → fams[i']? = some qf' →
      presentationMatch sup i' qf' = true →
        (getQueueFamilies fams sup).presentationFamily ≠ (i : Int)) := by
  obtain ⟨hlt, hres, hbefore, hstop⟩ := getQueueFamilies_of_last_queried fams sup k hk
  obtain ⟨_, _, g3, g4⟩ :=
    assignFamilies_graphicsFamily sup (fams.take (k + 1)) 0 {} (by decide)
  obtain ⟨_, _, p3, p4⟩ :=
    assignFamilies_presentationFamily sup (fams.take (k + 1)) 0 {} (by decide)
  have hres' : getQueueFamilies fams sup = assignFamilies sup (fams.take (k + 1)) 0 {} := hres
  rw [← hres'] at g3 g4 p3 p4
  simp only [Nat.zero_add] at g3 g4 p3 p4
  have hin : ∀ (i : Nat) (qf : QueueFamilyProperties), i ≤ k → fams[i]? = some qf →
      (fams.take (k + 1))[i]? = some qf := by
    intro i qf hi hq
    rw [List.getElem?_take_of_lt (by omega)]
    exact hq
  have hgmax : ∀ (i' : Nat) (qf' : QueueFamilyProperties), i' ≤ k → fams[i']? = some qf' →
      graphicsMatch qf' = true → (i' : Int) ≤ (getQueueFamilies fams sup).graphicsFamily :=
    fun i' qf' hi hq hmatch => g3 i' qf' (hin i' qf' hi hq) hmatch
  have hpmax : ∀ (i' : Nat) (qf' : QueueFamilyProperties), i' ≤ k → fams[i']? = some qf' →
      presentationMatch sup i' qf' = true →
        (i' : Int) ≤ (getQueueFamilies fams sup).presentationFamily :=
    fun i' qf' hi hq hmatch => p3 i' qf' (hin i' qf' hi hq) hmatch
  refine ⟨hlt, ?_, ?_, ?_, ?_, ?_⟩
  · by_cases hv : (indicesAfter sup fams k).isValid = true
    · exact Or.inl ⟨hv, hbefore⟩
    · have hv' : (indicesAfter sup fams k).isValid = false := by simpa using hv
      have hlast : k + 1 = fams.length := by
        by_contra hne
        exact hv (hstop (by omega))
      refine Or.inr ⟨hlast, fun j hj => ?_⟩
      rcases Nat.lt_or_ge j k with h | h
      · exact hbefore j h
      · have hjk : j = k := by omega
        rw [hjk]
        exact hv'
  · intro h0
    rcases g4 with h | ⟨j, qf, hq, hmatch, he⟩
    · rw [h] at h0
      exact absurd h0 (by decide)
    · have hj := lt_of_getElem?_take fams (k + 1) j qf hq
      refine ⟨j, qf, by omega, getElem?_of_take fams (k + 1) j qf hq, hmatch, he, ?_⟩
      intro i' qf' hi hq' hmatch'
      have := hgmax i' qf' hi hq' hmatch'
      omega
  · intro h0
    rcases p4 with h | ⟨j, qf, hq, hmatch, he⟩
    · rw [h] at h0
      exact absurd h0 (by decide)
    · have hj := lt_of_getElem?_take fams (k + 1) j qf hq
      refine ⟨j, qf, by omega, getElem?_of_take fams (k + 1) j qf hq, hmatch, he, ?_⟩
      intro i' qf' hi hq' hmatch'
      have := hpmax i' qf' hi hq' hmatch'
      omega
  · intro i i' qf' hii hi hq hmatch heq
    have := hgmax i' qf' hi hq hmatch
    omega
  · intro i i' qf' hii hi hq hmatch heq
    have := hpmax i' qf' hi hq hmatch
    omega

/-- C21 at families 0 and 1 graphics-capable and family 2 the only one with presentation
support: the scan stops at family 2, and the graphics index returned is not 0, family 1
having been scanned after it. -/
theorem getQueueFamilies_largest_scanned_witness :
    (getQueueFamilies [⟨1, 1⟩, ⟨1, 1⟩, ⟨0, 1⟩] (fun i => i == 2)).graphicsFamily ≠ ((0 : Nat) : Int) :=
  (getQueueFamilies_largest_scanned [⟨1, 1⟩, ⟨1, 1⟩, ⟨0, 1⟩] (fun i => i == 2) 2
    (by decide)).2.2.2.2.1 0 1 ⟨1, 1⟩ (by decide) (by decide) (by decide) (by decide)

/-! ## Surface format selection: range of the accesses -/

/-- On a non-empty sequence the selection reads in range and returns an entry of the
sequence, or the fixed default when the sequence is one UNDEFINED-format entry. -/
theorem chooseBestSurfaceFormat_of_cons (f0 : SurfaceFormat) (rest : List SurfaceFormat) :
    ∃ f, chooseBestSurfaceFormat (f0 :: rest) = some f ∧
      (f ∈ f0 :: rest ∨
        (f = { format := VK_FORMAT_B8G8R8A8_UNORM
               colorSpace := VK_COLOR_SPACE_SRGB_NONLINEAR_KHR } ∧
          ∃ colorSpace, f0 :: rest = [{ format := VK_FORMAT_UNDEFINED
                                        colorSpace := colorSpace }])) := by
  unfold chooseBestSurfaceFormat
  split_ifs with hcond
  · refine ⟨_, rfl, Or.inr ⟨rfl, f0.colorSpace, ?_⟩⟩
    obtain ⟨hlen, hfmt⟩ := hcond
    have hrest : rest = [] := by
      cases rest with
      | nil => rfl
      | cons a b => simp at hlen
    subst hrest
    simp only [List.getElem?_cons_zero, Option.map_some', Option.some.injEq] at hfmt
    cases f0
    simp_all
  · cases hfind : (f0 :: rest).find? preferredFormat with
    | some f => exact ⟨f, rfl, Or.inl (List.mem_of_find?_eq_some hfind)⟩
    | none => exact ⟨f0, by simp, Or.inl (List.mem_cons_self _ _)⟩

/-- C22: for every non-empty format sequence, chooseBestSurfaceFormat performs no
out-of-range access and returns either an element of the sequence or, only when the
sequence is exactly one UNDEFINED-format entry, the fixed default; the formats[0]
fallback is out of range exactly for the empty sequence, which does not reach
createSwapchain for a device accepted by checkDeviceSuitable: such a device has a
non-empty format sequence, and createSwapchain, querying the same formats, builds its
create info. -/
theorem chooseBestSurfaceFormat_in_range :
    (∀ formats : List SurfaceFormat, formats ≠ [] →
      ∃ f, chooseBestSurfaceFormat formats = some f ∧
        (f ∈ formats ∨
          (f = { format := VK_FORMAT_B8G8R8A8_UNORM
                 colorSpace := VK_COLOR_SPACE_SRGB_NONLINEAR_KHR } ∧
            ∃ colorSpace, formats = [{ format := VK_FORMAT_UNDEFINED
                                       colorSpace := colorSpace }]))) ∧
    (∀ formats : List SurfaceFormat, chooseBestSurfaceFormat formats = none ↔ formats = []) ∧
    (∀ (required : List String) (device : PhysicalDevice) (window : Int × Int),
      checkDeviceSuitable required device = true →
        (getSwapchainDetails device).formats ≠ [] ∧
        chooseBestSurfaceFormat (getSwapchainDetails device).formats ≠ none ∧
        ∃ info, swapchainCreateInfo device window = some info) := by
  have hne : ∀ formats : List SurfaceFormat, formats ≠ [] →
      ∃ f, chooseBestSurfaceFormat formats = some f ∧
        (f ∈ formats ∨
          (f = { format := VK_FORMAT_B8G8R8A8_UNORM
                 colorSpace := VK_COLOR_SPACE_SRGB_NONLINEAR_KHR } ∧
            ∃ colorSpace, formats = [{ format := VK_FORMAT_UNDEFINED
                                       colorSpace := colorSpace }])) := by
    intro formats h
    cases formats with
    | nil => exact absurd rfl h
    | cons f0 rest => exact chooseBestSurfaceFormat_of_cons f0 rest
  refine ⟨hne, ?_, ?_⟩
  · intro formats
    constructor
    · intro hnone
      by_contra h
      obtain ⟨f, hf, _⟩ := hne formats h
      rw [hf] at hnone
      cases hnone
    · intro h
      subst h
      decide
  · intro required device window hsuit
    have hformats : (getSwapchainDetails device).formats ≠ [] := by
      simp only [checkDeviceSuitable] at hsuit
      by_cases he : checkDeviceExtensionSupport required device = true
      · simp only [he, if_true, Bool.and_eq_true, Bool.not_eq_true', List.isEmpty_eq_false,
          Bool.and_true] at hsuit
        intro hnil
        have := hsuit.2.1
        simp [hnil] at this
      · simp [he] at hsuit
    obtain ⟨f, hf, _⟩ := hne _ hformats
    refine ⟨hformats, by rw [hf]; simp, ?_⟩
    simp only [swapchainCreateInfo, hf]
    exact ⟨_, rfl⟩

/-- C22 at a two-entry sequence with no preferred entry, and at a device accepted by
checkDeviceSuitable: an entry of the sequence is returned, and the create info of
createSwapchain is built. -/
theorem chooseBestSurfaceFormat_in_range_witness :
    (∃ f, chooseBestSurfaceFormat [⟨3, 5⟩, ⟨37, 1⟩] = some f ∧
      (f ∈ [(⟨3, 5⟩ : SurfaceFormat), ⟨37, 1⟩] ∨
        (f = { format := VK_FORMAT_B8G8R8A8_UNORM
               colorSpace := VK_COLOR_SPACE_SRGB_NONLINEAR_KHR } ∧
          ∃ colorSpace, [(⟨3, 5⟩ : SurfaceFormat), ⟨37, 1⟩]
            = [{ format := VK_FORMAT_UNDEFINED, colorSpace := colorSpace }]))) ∧
    ∃ info, swapchainCreateInfo
      { bareDevice with extensions := ["VK_KHR_swapchain"] } (800, 600) = some info :=
  ⟨chooseBestSurfaceFormat_in_range.1 [⟨3, 5⟩, ⟨37, 1⟩] (by decide),
   (chooseBestSurfaceFormat_in_range.2.2 ["VK_KHR_swapchain"]
      { bareDevice with extensions := ["VK_KHR_swapchain"] } (800, 600) (by decide)).2.2⟩

/-! ## Image count: 32-bit arithmetic -/

/-- C23: with 32-bit unsigned arithmetic (minImageCount + 1 taken modulo 2^32), for every
capabilities record with minImageCount < 2^32-1 and (maxImageCount == 0 or
maxImageCount >= minImageCount), the image count requested by createSwapchain is at
least minImageCount and, when maxImageCount > 0, at most maxImageCount; for a record of
32-bit fields the lower bound fails only at minImageCount == 2^32-1, by wrap-around, or
when maxImageCount is positive and below minImageCount, and it does fail in both
cases. -/
theorem requestedImageCount_wraparound :
    (∀ caps : SurfaceCapabilities, caps.minImageCount < 2 ^ 32 - 1 →
      (caps.maxImageCount = 0 ∨ caps.minImageCount ≤ caps.maxImageCount) →
        caps.minImageCount ≤ requestedImageCount caps ∧
        (0 < caps.maxImageCount → requestedImageCount caps ≤ caps.maxImageCount)) ∧
    (∀ caps : SurfaceCapabilities, caps.minImageCount < 2 ^ 32 →
      requestedImageCount caps < caps.minImageCount →
        caps.minImageCount = 2 ^ 32 - 1 ∨
        (0 < caps.maxImageCount ∧ caps.maxImageCount < caps.minImageCount)) ∧
    (∀ caps : SurfaceCapabilities, caps.minImageCount = 2 ^ 32 - 1 →
      requestedImageCount caps = 0) ∧
    (∀ caps : SurfaceCapabilities, caps.minImageCount < 2 ^ 32 - 1 →
      0 < caps.maxImageCount → caps.maxImageCount < caps.minImageCount →
        requestedImageCount caps = caps.maxImageCount) := by
  refine ⟨?_, ?_, ?_, ?_⟩
  · intro caps hmin hmax
    obtain ⟨h0, hlt, hge⟩ := requestedImageCount_cases caps
    have hmod : (caps.minImageCount + 1) % 2 ^ 32 = caps.minImageCount + 1 :=
      Nat.mod_eq_of_lt (by omega)
    rw [hmod] at h0 hlt hge
    rcases Nat.eq_zero_or_pos caps.maxImageCount with hz | hpos
    · rw [h0 hz]
      exact ⟨by omega, fun h => by omega⟩
    · rcases Nat.lt_or_ge caps.maxImageCount (caps.minImageCount + 1) with h | h
      · rw [hlt hpos h]
        exact ⟨by omega, fun _ => le_refl _⟩
      · rw [hge hpos h]
        exact ⟨by omega, fun _ => h⟩
  · intro caps hrange hbelow
    by_contra hnot
    have hmin : caps.minImageCount < 2 ^ 32 - 1 := by omega
    obtain ⟨h0, hlt, hge⟩ := requestedImageCount_cases caps
    have hmod : (caps.minImageCount + 1) % 2 ^ 32 = caps.minImageCount + 1 :=
      Nat.mod_eq_of_lt (by omega)
    rw [hmod] at h0 hlt hge
    rcases Nat.eq_zero_or_pos caps.maxImageCount with hz | hpos
    · rw [h0 hz] at hbelow
      omega
    · rcases Nat.lt_or_ge caps.maxImageCount (caps.minImageCount + 1) with h | h
      · rw [hlt hpos h] at hbelow
        exact hnot (Or.inr ⟨hpos, hbelow⟩)
      · rw [hge hpos h] at hbelow
        omega
  · intro caps hmin
    simp [requestedImageCount, hmin]
  · intro caps hmin hpos hlt
    obtain ⟨_, hl, _⟩ := requestedImageCount_cases caps
    have hmod : (caps.minImageCount + 1) % 2 ^ 32 = caps.minImageCount + 1 :=
      Nat.mod_eq_of_lt (by omega)
    rw [hmod] at hl
    exact hl hpos (by omega)

/-- C23 at (min=2, max=2), where the count is 2, within both bounds; and at
minImageCount = 2^32-1 with no maximum, where the sum wraps and the count is 0. -/
theorem requestedImageCount_wraparound_witness :
    ((2 : Nat) ≤ requestedImageCount ⟨2, 2, ⟨800, 600⟩, ⟨1, 1⟩, ⟨4096, 4096⟩⟩ ∧
      ((0 : Nat) < 2 → requestedImageCount ⟨2, 2, ⟨800, 600⟩, ⟨1, 1⟩, ⟨4096, 4096⟩⟩ ≤ 2)) ∧
    requestedImageCount ⟨2 ^ 32 - 1, 0, ⟨800, 600⟩, ⟨1, 1⟩, ⟨4096, 4096⟩⟩ = 0 :=
  ⟨requestedImageCount_wraparound.1 ⟨2, 2, ⟨800, 600⟩, ⟨1, 1⟩, ⟨4096, 4096⟩⟩
      (by decide) (Or.inr (le_refl _)),
   requestedImageCount_wraparound.2.2.1 ⟨2 ^ 32 - 1, 0, ⟨800, 600⟩, ⟨1, 1⟩, ⟨4096, 4096⟩⟩
      rfl⟩

/-! ## Instance extension support: the populate loop -/

/-- When the count query did not return `VK_INCOMPLETE`, the loop makes one populate call
and stops, whatever fuel it is given beyond that call. -/
theorem populateLoop_of_ne_incomplete (q : InstanceExtensionQuery)
    (h : q.countResult ≠ VK_INCOMPLETE) (fuel calls extensionsCount : Nat)
    (extensions : List String) :
    populateLoop q (fuel + 1) calls extensionsCount extensions
      = some ((q.populate calls).2.take extensionsCount
                ++ extensions.drop ((q.populate calls).2.take extensionsCount).length,
              calls + 1) := by
  simp only [populateLoop]
  rw [if_neg h]

/-- When the count query returned `VK_INCOMPLETE`, the loop never stops: no fuel is
enough. -/
theorem populateLoop_of_incomplete (q : InstanceExtensionQuery)
    (h : q.countResult = VK_INCOMPLETE) :
    ∀ (fuel calls extensionsCount : Nat) (extensions : List String),
      populateLoop q fuel calls extensionsCount extensions = none := by
  intro fuel
  induction fuel with
  | zero =>
    intro calls extensionsCount extensions
    rfl
  | succ fuel ih =>
    intro calls extensionsCount extensions
    simp only [populateLoop]
    rw [if_pos h]
    exact ih _ _ _

/-- The value returned and the populate calls made when the count query did not return
`VK_INCOMPLETE` and gave a positive count. -/
theorem checkInstanceExtensionSupport_eq (q : InstanceExtensionQuery) (fuel : Nat)
    (required : List String) (hres : q.countResult ≠ VK_INCOMPLETE)
    (hcount : 0 < q.extensionsCount) (hfuel : 0 < fuel) :
    checkInstanceExtensionSupport q fuel required
      = some (required.all fun r => (retrievedNames q).any fun e => r == e, 1) := by
  obtain ⟨n, hn⟩ : ∃ n, fuel = n + 1 := ⟨fuel - 1, by omega⟩
  subst hn
  simp only [checkInstanceExtensionSupport]
  rw [if_pos hcount, populateLoop_of_ne_incomplete q hres]
  simp [retrievedNames, writtenNames, List.drop_replicate]

theorem all_any_eq_true_iff (required names : List String) :
    (required.all fun r => names.any fun e => r == e) = true ↔ ∀ r ∈ required, r ∈ names := by
  simp [List.all_eq_true, List.any_eq_true]

/-- C24: in checkInstanceExtensionSupport, whenever the initial count query returns a
result other than VK_INCOMPLETE and a positive count, the populate loop terminates (any
positive fuel is enough) after exactly one populate call, whatever that populate call
returns, VK_INCOMPLETE included: the result of the populate call is not read. The
function then returns true if and only if every required extension name is among the
retrieved names, the names held by the array after that call; these are the names the
call wrote when it filled the array or when no required name is empty. -/
theorem checkInstanceExtensionSupport_single_populate (q : InstanceExtensionQuery)
    (fuel : Nat) (required : List String) (hres : q.countResult ≠ VK_INCOMPLETE)
    (hcount : 0 < q.extensionsCount) (hfuel : 0 < fuel) :
    (∃ b, checkInstanceExtensionSupport q fuel required = some (b, 1) ∧
      (b = true ↔ ∀ r ∈ required, r ∈ retrievedNames q) ∧
      (((∀ r ∈ required, r ≠ "") ∨ (writtenNames q).length = q.extensionsCount) →
        (b = true ↔ ∀ r ∈ required, r ∈ writtenNames q))) ∧
    (∀ populateResult : Int,
      checkInstanceExtensionSupport
          { q with populate := fun call => (populateResult, (q.populate call).2) } fuel required
        = checkInstanceExtensionSupport q fuel required) := by
  constructor
  · refine ⟨_, checkInstanceExtensionSupport_eq q fuel required hres hcount hfuel,
      all_any_eq_true_iff required (retrievedNames q), ?_⟩
    intro hcase
    rw [all_any_eq_true_iff]
    have hmem : ∀ r ∈ required, (r ∈ retrievedNames q ↔ r ∈ writtenNames q) := by
      intro r hr
      simp only [retrievedNames, List.mem_append, List.mem_replicate]
      constructor
      · rintro (h | ⟨hpad, hempty⟩)
        · exact h
        · rcases hcase with hne | hfull
          · exact absurd hempty (hne r hr)
          · rw [hfull] at hpad
            simp at hpad
      · exact fun h => Or.inl h
    constructor
    · intro h r hr
      exact (hmem r hr).mp (h r hr)
    · intro h r hr
      exact (hmem r hr).mpr (h r hr)
  · intro populateResult
    have hother := checkInstanceExtensionSupport_eq
      { q with populate := fun call => (populateResult, (q.populate call).2) } fuel required
      hres hcount hfuel
    rw [checkInstanceExtensionSupport_eq q fuel required hres hcount hfuel, hother]
    rfl

/-- C24 at a count query answering VK_SUCCESS with a count of 3 and a populate call that
returns VK_INCOMPLETE after writing two names: one populate call is made and the
required name, written by it, is found. -/
theorem checkInstanceExtensionSupport_single_populate_witness :
    ∃ b, checkInstanceExtensionSupport
        { countResult := VK_SUCCESS, extensionsCount := 3,
          populate := fun _ => (VK_INCOMPLETE, ["VK_KHR_surface", "VK_EXT_debug_utils"]) }
        4 ["VK_EXT_debug_utils"] = some (b, 1) ∧
      (b = true ↔ ∀ r ∈ ["VK_EXT_debug_utils"],
        r ∈ retrievedNames
          { countResult := VK_SUCCESS, extensionsCount := 3,
            populate := fun _ => (VK_INCOMPLETE, ["VK_KHR_surface", "VK_EXT_debug_utils"]) }) ∧
      (((∀ r ∈ ["VK_EXT_debug_utils"], r ≠ "") ∨
          (writtenNames
            { countResult := VK_SUCCESS, extensionsCount := 3,
              populate := fun _ => (VK_INCOMPLETE, ["VK_KHR_surface", "VK_EXT_debug_utils"]) }).length
            = 3) →
        (b = true ↔ ∀ r ∈ ["VK_EXT_debug_utils"],
          r ∈ writtenNames
            { countResult := VK_SUCCESS, extensionsCount := 3,
              populate := fun _ => (VK_INCOMPLETE, ["VK_KHR_surface", "VK_EXT_debug_utils"]) })) :=
  (checkInstanceExtensionSupport_single_populate
    { countResult := VK_SUCCESS, extensionsCount := 3,
      populate := fun _ => (VK_INCOMPLETE, ["VK_KHR_surface", "VK_EXT_debug_utils"]) }
    4 ["VK_EXT_debug_utils"] (by decide) (by decide) (by decide)).1

end VulkanRenderer
